import Mathlib

/-!
Shallow embedding of the discovery-and-pricing engine of the awscogs
repository (backend/internal/aws/discovery.go, backend/internal/pricing,
backend/internal/types), with proofs of the specification claims.

Monetary values (Go `types.CostValue`, a `float64`) are modelled as `ℚ`;
instants (Go `time.Time`) as `ℕ`, with the zero time modelled as `none`.
-/

namespace Awscogs

/-- Go `types.CostValue` (backend/internal/types/cost.go). -/
abbrev CostValue := ℚ

/-- Go `types.EC2Instance`. -/
structure EC2Instance where
  accountID : String
  accountName : String
  region : String
  instanceID : String
  name : String
  instanceType : String
  state : String
  hourlyCost : CostValue
deriving DecidableEq, Repr

/-- Go `types.EBSVolume`. -/
structure EBSVolume where
  accountID : String
  accountName : String
  region : String
  volumeID : String
  name : String
  volumeType : String
  size : ℤ
  iops : ℤ
  throughput : ℤ
  state : String
  hourlyCost : CostValue
deriving DecidableEq, Repr

/-- Go `types.RDSInstance`. -/
structure RDSInstance where
  accountID : String
  accountName : String
  region : String
  dbInstanceID : String
  name : String
  engine : String
  engineVersion : String
  instanceClass : String
  multiAZ : Bool
  storageType : String
  allocatedStorage : ℤ
  state : String
  hourlyCost : CostValue
deriving DecidableEq, Repr

/-- Go `types.ECSService`. -/
structure ECSService where
  accountID : String
  accountName : String
  region : String
  clusterName : String
  serviceName : String
  launchType : String
  desiredCount : ℤ
  runningCount : ℤ
  state : String
  hourlyCost : CostValue
deriving DecidableEq, Repr

/-- Go `types.EKSCluster`. -/
structure EKSCluster where
  accountID : String
  accountName : String
  region : String
  clusterName : String
  status : String
  version : String
  platform : String
  hourlyCost : CostValue
deriving DecidableEq, Repr

/-- Go `types.LoadBalancer`. -/
structure LoadBalancer where
  accountID : String
  accountName : String
  region : String
  name : String
  arn : String
  type : String
  scheme : String
  state : String
  hourlyCost : CostValue
deriving DecidableEq, Repr

/-- Go `types.AccountSummary`. -/
structure AccountSummary where
  accountID : String
  accountName : String
  ec2Count : ℕ
  ebsCount : ℕ
  ecsCount : ℕ
  rdsCount : ℕ
  eksCount : ℕ
  elbCount : ℕ
  totalCost : CostValue
deriving DecidableEq, Repr

/-- Go `types.RegionSummary`. -/
structure RegionSummary where
  region : String
  ec2Count : ℕ
  ebsCount : ℕ
  ecsCount : ℕ
  rdsCount : ℕ
  eksCount : ℕ
  elbCount : ℕ
  totalCost : CostValue
deriving DecidableEq, Repr

/-- Go `types.AppliedFilters`. -/
structure AppliedFilters where
  accounts : List String
  regions : List String
  resourceTypes : List String
deriving DecidableEq, Repr

/-- Go `types.CostResponse`. -/
structure CostResponse where
  timestamp : String
  totalCost : CostValue
  currency : String
  accounts : List AccountSummary
  regions : List RegionSummary
  ec2Instances : List EC2Instance
  ebsVolumes : List EBSVolume
  ecsServices : List ECSService
  rdsInstances : List RDSInstance
  eksClusters : List EKSCluster
  loadBalancers : List LoadBalancer
  filters : AppliedFilters
deriving DecidableEq, Repr

/-- Association-list lookup, modelling Go map indexing `m[k]` with `ok`. -/
def lookupAssoc {β : Type} : List (String × β) → String → Option β
  | [], _ => none
  | (k', v) :: rest, k => if k' = k then some v else lookupAssoc rest k

/-- Association-list update, modelling Go map assignment `m[k] = v`. -/
def setAssoc {β : Type} : List (String × β) → String → β → List (String × β)
  | [], k, v => [(k, v)]
  | (k', v') :: rest, k, v =>
      if k' = k then (k, v) :: rest else (k', v') :: setAssoc rest k v

/-- Models the Go pattern in `buildAccountSummaries` / `buildRegionSummaries`:
`if _, ok := summaries[key]; !ok { summaries[key] = fresh }` followed by an
in-place update of `summaries[key]`. -/
def upsert {β : Type} : List (String × β) → String → β → (β → β) → List (String × β)
  | [], k, fresh, upd => [(k, upd fresh)]
  | (k', s) :: rest, k, fresh, upd =>
      if k' = k then (k', upd s) :: rest else (k', s) :: upsert rest k fresh upd

/-- A zero-valued `AccountSummary` for a freshly seen account key
(discovery.go, e.g. lines 875-878). -/
def freshAccountSummary (accountID accountName : String) : AccountSummary :=
  { accountID := accountID, accountName := accountName,
    ec2Count := 0, ebsCount := 0, ecsCount := 0, rdsCount := 0,
    eksCount := 0, elbCount := 0, totalCost := 0 }

/-- A zero-valued `RegionSummary` for a freshly seen region key
(discovery.go line 958). -/
def freshRegionSummary (region : String) : RegionSummary :=
  { region := region,
    ec2Count := 0, ebsCount := 0, ecsCount := 0, rdsCount := 0,
    eksCount := 0, elbCount := 0, totalCost := 0 }

/-- One step of the EC2 loop of `buildAccountSummaries` (discovery.go 872-882). -/
def accountStepEC2 (m : List (String × AccountSummary)) (inst : EC2Instance) :
    List (String × AccountSummary) :=
  upsert m inst.accountID (freshAccountSummary inst.accountID inst.accountName)
    (fun s => { s with ec2Count := s.ec2Count + 1, totalCost := s.totalCost + inst.hourlyCost })

/-- One step of the EBS loop of `buildAccountSummaries` (discovery.go 884-894). -/
def accountStepEBS (m : List (String × AccountSummary)) (vol : EBSVolume) :
    List (String × AccountSummary) :=
  upsert m vol.accountID (freshAccountSummary vol.accountID vol.accountName)
    (fun s => { s with ebsCount := s.ebsCount + 1, totalCost := s.totalCost + vol.hourlyCost })

/-- One step of the ECS loop of `buildAccountSummaries` (discovery.go 896-906). -/
def accountStepECS (m : List (String × AccountSummary)) (svc : ECSService) :
    List (String × AccountSummary) :=
  upsert m svc.accountID (freshAccountSummary svc.accountID svc.accountName)
    (fun s => { s with ecsCount := s.ecsCount + 1, totalCost := s.totalCost + svc.hourlyCost })

/-- One step of the RDS loop of `buildAccountSummaries` (discovery.go 908-918). -/
def accountStepRDS (m : List (String × AccountSummary)) (inst : RDSInstance) :
    List (String × AccountSummary) :=
  upsert m inst.accountID (freshAccountSummary inst.accountID inst.accountName)
    (fun s => { s with rdsCount := s.rdsCount + 1, totalCost := s.totalCost + inst.hourlyCost })

/-- One step of the EKS loop of `buildAccountSummaries` (discovery.go 920-930). -/
def accountStepEKS (m : List (String × AccountSummary)) (cluster : EKSCluster) :
    List (String × AccountSummary) :=
  upsert m cluster.accountID (freshAccountSummary cluster.accountID cluster.accountName)
    (fun s => { s with eksCount := s.eksCount + 1, totalCost := s.totalCost + cluster.hourlyCost })

/-- One step of the ELB loop of `buildAccountSummaries` (discovery.go 932-942). -/
def accountStepELB (m : List (String × AccountSummary)) (lb : LoadBalancer) :
    List (String × AccountSummary) :=
  upsert m lb.accountID (freshAccountSummary lb.accountID lb.accountName)
    (fun s => { s with elbCount := s.elbCount + 1, totalCost := s.totalCost + lb.hourlyCost })

/-- `buildAccountSummaries` (discovery.go 869-949): six grouping passes over
the merged per-family lists, then the map's values. -/
def buildAccountSummaries (ec2 : List EC2Instance) (ebs : List EBSVolume)
    (ecs : List ECSService) (rds : List RDSInstance) (eks : List EKSCluster)
    (elb : List LoadBalancer) : List AccountSummary :=
  let m : List (String × AccountSummary) := []
  let m := ec2.foldl accountStepEC2 m
  let m := ebs.foldl accountStepEBS m
  let m := ecs.foldl accountStepECS m
  let m := rds.foldl accountStepRDS m
  let m := eks.foldl accountStepEKS m
  let m := elb.foldl accountStepELB m
  m.map Prod.snd

/-- One step of the EC2 loop of `buildRegionSummaries` (discovery.go 955-962). -/
def regionStepEC2 (m : List (String × RegionSummary)) (inst : EC2Instance) :
    List (String × RegionSummary) :=
  upsert m inst.region (freshRegionSummary inst.region)
    (fun s => { s with ec2Count := s.ec2Count + 1, totalCost := s.totalCost + inst.hourlyCost })

/-- One step of the EBS loop of `buildRegionSummaries` (discovery.go 964-971). -/
def regionStepEBS (m : List (String × RegionSummary)) (vol : EBSVolume) :
    List (String × RegionSummary) :=
  upsert m vol.region (freshRegionSummary vol.region)
    (fun s => { s with ebsCount := s.ebsCount + 1, totalCost := s.totalCost + vol.hourlyCost })

/-- One step of the ECS loop of `buildRegionSummaries` (discovery.go 973-980). -/
def regionStepECS (m : List (String × RegionSummary)) (svc : ECSService) :
    List (String × RegionSummary) :=
  upsert m svc.region (freshRegionSummary svc.region)
    (fun s => { s with ecsCount := s.ecsCount + 1, totalCost := s.totalCost + svc.hourlyCost })

/-- One step of the RDS loop of `buildRegionSummaries` (discovery.go 982-989). -/
def regionStepRDS (m : List (String × RegionSummary)) (inst : RDSInstance) :
    List (String × RegionSummary) :=
  upsert m inst.region (freshRegionSummary inst.region)
    (fun s => { s with rdsCount := s.rdsCount + 1, totalCost := s.totalCost + inst.hourlyCost })

/-- One step of the EKS loop of `buildRegionSummaries` (discovery.go 991-998). -/
def regionStepEKS (m : List (String × RegionSummary)) (cluster : EKSCluster) :
    List (String × RegionSummary) :=
  upsert m cluster.region (freshRegionSummary cluster.region)
    (fun s => { s with eksCount := s.eksCount + 1, totalCost := s.totalCost + cluster.hourlyCost })

/-- One step of the ELB loop of `buildRegionSummaries` (discovery.go 1000-1007). -/
def regionStepELB (m : List (String × RegionSummary)) (lb : LoadBalancer) :
    List (String × RegionSummary) :=
  upsert m lb.region (freshRegionSummary lb.region)
    (fun s => { s with elbCount := s.elbCount + 1, totalCost := s.totalCost + lb.hourlyCost })

/-- `buildRegionSummaries` (discovery.go 952-1014). -/
def buildRegionSummaries (ec2 : List EC2Instance) (ebs : List EBSVolume)
    (ecs : List ECSService) (rds : List RDSInstance) (eks : List EKSCluster)
    (elb : List LoadBalancer) : List RegionSummary :=
  let m : List (String × RegionSummary) := []
  let m := ec2.foldl regionStepEC2 m
  let m := ebs.foldl regionStepEBS m
  let m := ecs.foldl regionStepECS m
  let m := rds.foldl regionStepRDS m
  let m := eks.foldl regionStepEKS m
  let m := elb.foldl regionStepELB m
  m.map Prod.snd

/-- The merge-and-summarise tail of `DiscoverResources` (discovery.go 169-205):
total-cost accumulation over the six merged lists, summary building, and the
`CostResponse` literal (whose `Timestamp` and `Filters` are zero-valued here). -/
def discoverResourcesCore (allEC2 : List EC2Instance) (allEBS : List EBSVolume)
    (allECS : List ECSService) (allRDS : List RDSInstance) (allEKS : List EKSCluster)
    (allELB : List LoadBalancer) : CostResponse :=
  let totalCost : CostValue := 0
  let totalCost := allEC2.foldl (fun acc inst => acc + inst.hourlyCost) totalCost
  let totalCost := allEBS.foldl (fun acc vol => acc + vol.hourlyCost) totalCost
  let totalCost := allECS.foldl (fun acc svc => acc + svc.hourlyCost) totalCost
  let totalCost := allRDS.foldl (fun acc inst => acc + inst.hourlyCost) totalCost
  let totalCost := allEKS.foldl (fun acc cluster => acc + cluster.hourlyCost) totalCost
  let totalCost := allELB.foldl (fun acc lb => acc + lb.hourlyCost) totalCost
  { timestamp := "",
    totalCost := totalCost,
    currency := "USD",
    accounts := buildAccountSummaries allEC2 allEBS allECS allRDS allEKS allELB,
    regions := buildRegionSummaries allEC2 allEBS allECS allRDS allEKS allELB,
    ec2Instances := allEC2,
    ebsVolumes := allEBS,
    ecsServices := allECS,
    rdsInstances := allRDS,
    eksClusters := allEKS,
    loadBalancers := allELB,
    filters := { accounts := [], regions := [], resourceTypes := [] } }

/-- Go `aws.Account` (discovery.go 42-46). -/
structure Account where
  id : String
  name : String
  roleARN : String
deriving DecidableEq, Repr

/-- The per-unit outcome of the six collector calls of one (account, region)
goroutine (discovery.go 101-153): each collector either returns its listing or
fails with an error (in which case its nil slice contributes nothing to the
merge at lines 155-162). -/
structure UnitCollects where
  ec2 : Except String (List EC2Instance)
  ebs : Except String (List EBSVolume)
  ecs : Except String (List ECSService)
  rds : Except String (List RDSInstance)
  eks : Except String (List EKSCluster)
  elb : Except String (List LoadBalancer)

/-- A failed listing call leaves the corresponding slice nil, so it appends
nothing at discovery.go 155-162. -/
def exceptList {α : Type} : Except String (List α) → List α
  | .ok l => l
  | .error _ => []

/-- The contribution of one unit to one family's merged list: a unit whose
credential resolution failed (discovery.go 73-79, modelled as `none`)
contributes nothing at all, and a failed collector contributes nothing for
its family. -/
def unitContrib {α : Type} (f : UnitCollects → Except String (List α))
    (o : Option UnitCollects) : List α :=
  match o with
  | none => []
  | some c => exceptList (f c)

/-- `DiscoverResources` (discovery.go 49-205). The environment is abstracted
as `unit`, giving for each (account, region) pair either `none` (credential
resolution failed, the goroutine returns early) or the six collector outcomes.
The concurrent fan-out is linearised in nested-loop order; the merge at lines
155-162 appends each unit's slices under the mutex. -/
def DiscoverResources (accounts : List Account) (regions : List String)
    (unit : Account → String → Option UnitCollects) : Except String CostResponse :=
  let accounts := if accounts.isEmpty then [{ id := "", name := "", roleARN := "" }] else accounts
  let outcomes := (accounts.flatMap fun acc => regions.map fun reg => (acc, reg)).map
    fun p => unit p.1 p.2
  let allEC2 := outcomes.foldl (fun l o => l ++ unitContrib UnitCollects.ec2 o) []
  let allEBS := outcomes.foldl (fun l o => l ++ unitContrib UnitCollects.ebs o) []
  let allECS := outcomes.foldl (fun l o => l ++ unitContrib UnitCollects.ecs o) []
  let allRDS := outcomes.foldl (fun l o => l ++ unitContrib UnitCollects.rds o) []
  let allEKS := outcomes.foldl (fun l o => l ++ unitContrib UnitCollects.eks o) []
  let allELB := outcomes.foldl (fun l o => l ++ unitContrib UnitCollects.elb o) []
  Except.ok (discoverResourcesCore allEC2 allEBS allECS allRDS allEKS allELB)

/-- An EC2 tag (key and value are nullable in the AWS SDK). -/
structure Tag where
  key : Option String
  value : Option String
deriving DecidableEq, Repr

/-- `getEC2Name` (discovery.go 838-845): first tag with key "Name" and a
non-nil value. -/
def getEC2Name : List Tag → String
  | [] => ""
  | t :: rest =>
      match t.key, t.value with
      | some "Name", some v => v
      | _, _ => getEC2Name rest

/-- The fields of an AWS SDK EC2 instance read by `discoverEC2`:
`InstanceId`, `Tags`, `InstanceType`, `State.Name` (nil `State` modelled as
`none`). -/
structure RawEC2 where
  instanceId : Option String
  tags : List Tag
  instanceType : String
  state : Option String
deriving DecidableEq, Repr

/-- The per-instance body of `discoverEC2` (discovery.go 338-373), applied to
the listed instances in order. `provider region instanceType` is the pricing
provider's answer for one `GetEC2Price` call; the second component records
every pricing lookup actually issued. -/
def discoverEC2 (provider : String → String → Except String CostValue)
    (region accountID accountName : String) : List RawEC2 →
    List EC2Instance × List (String × String)
  | [] => ([], [])
  | inst :: rest =>
      if inst.state = some "terminated" then
        discoverEC2 provider region accountID accountName rest
      else
        let name := getEC2Name inst.tags
        let instanceType := inst.instanceType
        let state := inst.state.getD ""
        let priced : CostValue × List (String × String) :=
          if inst.state = some "running" then
            match provider region instanceType with
            | .error _ => (0, [(region, instanceType)])
            | .ok price => (price, [(region, instanceType)])
          else (0, [])
        let tail := discoverEC2 provider region accountID accountName rest
        ({ accountID := accountID, accountName := accountName, region := region,
           instanceID := inst.instanceId.getD "", name := name,
           instanceType := instanceType, state := state,
           hourlyCost := priced.1 } :: tail.1,
         priced.2 ++ tail.2)

/-- `isRDSNonBillableState` (discovery.go 858-866). -/
def isRDSNonBillableState (state : String) : Bool :=
  match state with
  | "stopped" | "stopping" | "deleted" | "deleting" | "failed"
  | "inaccessible-encryption-credentials" | "incompatible-network"
  | "incompatible-restore" | "insufficient-capacity" => true
  | _ => false

/-- The fields of an AWS SDK RDS DB instance read by `discoverRDS`
(discovery.go 454-490); pointer fields are `Option`s defaulted exactly as in
the source. -/
structure RawRDS where
  dbInstanceIdentifier : Option String
  engine : Option String
  engineVersion : Option String
  dbInstanceClass : Option String
  multiAZ : Option Bool
  storageType : Option String
  allocatedStorage : Option ℤ
  dbInstanceStatus : Option String
deriving DecidableEq, Repr

/-- The per-instance body of `discoverRDS` (discovery.go 454-522).
`provider region instanceClass engine multiAZ` is the pricing provider's
answer for one `GetRDSPrice` call; the second component records every pricing
lookup actually issued. -/
def discoverRDS (provider : String → String → String → Bool → Except String CostValue)
    (region accountID accountName : String) : List RawRDS →
    List RDSInstance × List (String × String × String × Bool)
  | [] => ([], [])
  | inst :: rest =>
      let name := inst.dbInstanceIdentifier.getD ""
      let engine := inst.engine.getD ""
      let engineVersion := inst.engineVersion.getD ""
      let instanceClass := inst.dbInstanceClass.getD ""
      let multiAZ := inst.multiAZ.getD false
      let storageType := inst.storageType.getD ""
      let allocatedStorage := inst.allocatedStorage.getD 0
      let state := inst.dbInstanceStatus.getD ""
      let priced : CostValue × List (String × String × String × Bool) :=
        if isRDSNonBillableState state then ((0 : CostValue), [])
        else
          match provider region instanceClass engine multiAZ with
          | .error _ => (0, [(region, instanceClass, engine, multiAZ)])
          | .ok price => (price, [(region, instanceClass, engine, multiAZ)])
      let tail := discoverRDS provider region accountID accountName rest
      ({ accountID := accountID, accountName := accountName, region := region,
         dbInstanceID := inst.dbInstanceIdentifier.getD "", name := name,
         engine := engine, engineVersion := engineVersion,
         instanceClass := instanceClass, multiAZ := multiAZ,
         storageType := storageType, allocatedStorage := allocatedStorage,
         state := state, hourlyCost := priced.1 } :: tail.1,
       priced.2 ++ tail.2)

/-- The mutable state of `pricing.AWSProvider` (backend/internal/pricing,
lines 20-29): four per-family cache maps, the single shared expiry watermark
(`time.Time` zero value modelled as `none`) and the configured duration. -/
structure ProviderState where
  ec2Cache : List (String × CostValue)
  ebsCache : List (String × CostValue)
  ecsCache : List (String × CostValue)
  rdsCache : List (String × CostValue)
  cacheExpiry : Option ℕ
  cacheDuration : ℕ
deriving DecidableEq, Repr

/-- `time.Now().Before(p.cacheExpiry)`: false when the watermark is the zero
time, otherwise a strict comparison. -/
def cacheValidAt (st : ProviderState) (now : ℕ) : Bool :=
  match st.cacheExpiry with
  | none => false
  | some e => decide (now < e)

/-- `p.cacheExpiry.IsZero() || time.Now().After(p.cacheExpiry)`: the watermark
is (re)set only when unset or already passed. -/
def shouldSetExpiry (st : ProviderState) (now : ℕ) : Bool :=
  match st.cacheExpiry with
  | none => true
  | some e => decide (e < now)

/-- `RefreshCache` (pricing, lines 266-275): drops all entries and the
watermark unconditionally. -/
def RefreshCache (st : ProviderState) : ProviderState :=
  { st with
    ec2Cache := []
    ebsCache := []
    ecsCache := []
    rdsCache := []
    cacheExpiry := none }

/-- `GetEC2Price` (pricing, lines 69-95). `fetch` is the outcome of the
`fetchEC2Price` call to the Pricing Source for this (region, instanceType);
the third component records whether the source was called. -/
def GetEC2Price (st : ProviderState) (now : ℕ) (fetch : Except String CostValue)
    (region instanceType : String) :
    Except String CostValue × ProviderState × Bool :=
  let cacheKey := region ++ ":" ++ instanceType
  match lookupAssoc st.ec2Cache cacheKey, cacheValidAt st now with
  | some price, true => (.ok price, st, false)
  | _, _ =>
      match fetch with
      | .error e => (.error e, st, true)
      | .ok price =>
          let ec2Cache := setAssoc st.ec2Cache cacheKey price
          let cacheExpiry :=
            if shouldSetExpiry st now then some (now + st.cacheDuration) else st.cacheExpiry
          (.ok price, { st with ec2Cache := ec2Cache, cacheExpiry := cacheExpiry }, true)

/-- `GetRDSPrice` (pricing, lines 157-187), with `fetch` the outcome of the
`fetchRDSPrice` call for these dimensions. -/
def GetRDSPrice (st : ProviderState) (now : ℕ) (fetch : Except String CostValue)
    (region instanceClass engine : String) (multiAZ : Bool) :
    Except String CostValue × ProviderState × Bool :=
  let multiAZStr := if multiAZ then "true" else "false"
  let cacheKey := region ++ ":" ++ instanceClass ++ ":" ++ engine ++ ":" ++ multiAZStr
  match lookupAssoc st.rdsCache cacheKey, cacheValidAt st now with
  | some price, true => (.ok price, st, false)
  | _, _ =>
      match fetch with
      | .error e => (.error e, st, true)
      | .ok price =>
          let rdsCache := setAssoc st.rdsCache cacheKey price
          let cacheExpiry :=
            if shouldSetExpiry st now then some (now + st.cacheDuration) else st.cacheExpiry
          (.ok price, { st with rdsCache := rdsCache, cacheExpiry := cacheExpiry }, true)

/-- The derived-cost arithmetic of `GetEBSPrice` (pricing, lines 132-153):
base monthly rate times size, metered IOPS above the gp3 free threshold of
3000 (io1/io2 meter every IOPS), metered throughput above the gp3 free
threshold of 125 MiB/s, converted to hourly by the 730 hours-per-month
constant. -/
def ebsHourlyFromRates (volumeType : String) (basePrice iopsPrice tpPrice : CostValue)
    (sizeGiB iops throughput : ℤ) : CostValue :=
  let monthlyCost := basePrice * (sizeGiB : ℚ)
  let monthlyCost :=
    if volumeType = "gp3" ∧ 3000 < iops then
      monthlyCost + iopsPrice * ((iops - 3000 : ℤ) : ℚ)
    else if volumeType = "io1" ∨ volumeType = "io2" then
      monthlyCost + iopsPrice * (iops : ℚ)
    else monthlyCost
  let monthlyCost :=
    if volumeType = "gp3" ∧ 125 < throughput then
      monthlyCost + tpPrice * ((throughput - 125 : ℤ) : ℚ)
    else monthlyCost
  monthlyCost / 730

/-- `GetEBSPrice` (pricing, lines 98-154). `fetchPrices` is the outcome of the
`fetchEBSPrices` call (base, IOPS, throughput rates); a cache hit with the
IOPS or throughput entry absent reads the Go map's zero value. -/
def GetEBSPrice (st : ProviderState) (now : ℕ)
    (fetchPrices : Except String (CostValue × CostValue × CostValue))
    (region volumeType : String) (sizeGiB iops throughput : ℤ) :
    Except String CostValue × ProviderState × Bool :=
  let baseCacheKey := region ++ ":" ++ volumeType
  let iopsCached := (lookupAssoc st.ebsCache (baseCacheKey ++ ":iops")).getD 0
  let tpCached := (lookupAssoc st.ebsCache (baseCacheKey ++ ":throughput")).getD 0
  match lookupAssoc st.ebsCache baseCacheKey, cacheValidAt st now with
  | some basePrice, true =>
      (.ok (ebsHourlyFromRates volumeType basePrice iopsCached tpCached sizeGiB iops throughput),
       st, false)
  | _, _ =>
      match fetchPrices with
      | .error e => (.error e, st, true)
      | .ok (basePrice, iopsPrice, tpPrice) =>
          let ebsCache := setAssoc st.ebsCache baseCacheKey basePrice
          let ebsCache := setAssoc ebsCache (baseCacheKey ++ ":iops") iopsPrice
          let ebsCache := setAssoc ebsCache (baseCacheKey ++ ":throughput") tpPrice
          let cacheExpiry :=
            if shouldSetExpiry st now then some (now + st.cacheDuration) else st.cacheExpiry
          (.ok (ebsHourlyFromRates volumeType basePrice iopsPrice tpPrice sizeGiB iops throughput),
           { st with ebsCache := ebsCache, cacheExpiry := cacheExpiry }, true)

/-- The per-region Fargate per-task reference rates of `getECSFargatePrice`
(pricing, lines 233-263). -/
def ecsRegionPrices : List (String × CostValue) :=
  [("us-east-1", 0.02469), ("us-east-2", 0.02469), ("us-west-1", 0.02855),
   ("us-west-2", 0.02469), ("eu-west-1", 0.02697), ("eu-west-2", 0.02826),
   ("eu-west-3", 0.02826), ("eu-central-1", 0.02826), ("eu-north-1", 0.02607),
   ("ap-southeast-1", 0.02826), ("ap-southeast-2", 0.02955),
   ("ap-northeast-1", 0.02955), ("ap-northeast-2", 0.02826),
   ("ap-south-1", 0.02469), ("ca-central-1", 0.02697), ("sa-east-1", 0.03342)]

/-- `getECSFargatePrice` (pricing, lines 233-263): region table with the
us-east-1 rate as default. -/
def getECSFargatePrice (region : String) : CostValue :=
  (lookupAssoc ecsRegionPrices region).getD 0.02469

/-- `GetECSPrice` (pricing, lines 192-229): zero for a non-positive running
count or a non-FARGATE launch type; otherwise the per-task reference rate
(cached or from the static table — this function never calls the Pricing
Source) times the running count. -/
def GetECSPrice (st : ProviderState) (now : ℕ) (region launchType : String)
    (runningCount : ℤ) : Except String CostValue × ProviderState × Bool :=
  if runningCount ≤ 0 then (.ok 0, st, false)
  else if launchType ≠ "FARGATE" then (.ok 0, st, false)
  else
    let cacheKey := region ++ ":" ++ launchType
    match lookupAssoc st.ecsCache cacheKey, cacheValidAt st now with
    | some price, true => (.ok (price * (runningCount : ℚ)), st, false)
    | _, _ =>
        let perTaskPrice := getECSFargatePrice region
        let ecsCache := setAssoc st.ecsCache cacheKey perTaskPrice
        let cacheExpiry :=
          if shouldSetExpiry st now then some (now + st.cacheDuration) else st.cacheExpiry
        (.ok (perTaskPrice * (runningCount : ℚ)),
         { st with ecsCache := ecsCache, cacheExpiry := cacheExpiry }, false)

/-- `regionToLocation` (pricing, lines 592-622). -/
def regionToLocation : List (String × String) :=
  [("us-east-1", "US East (N. Virginia)"), ("us-east-2", "US East (Ohio)"),
   ("us-west-1", "US West (N. California)"), ("us-west-2", "US West (Oregon)"),
   ("af-south-1", "Africa (Cape Town)"), ("ap-east-1", "Asia Pacific (Hong Kong)"),
   ("ap-south-1", "Asia Pacific (Mumbai)"), ("ap-south-2", "Asia Pacific (Hyderabad)"),
   ("ap-southeast-1", "Asia Pacific (Singapore)"), ("ap-southeast-2", "Asia Pacific (Sydney)"),
   ("ap-southeast-3", "Asia Pacific (Jakarta)"), ("ap-southeast-4", "Asia Pacific (Melbourne)"),
   ("ap-northeast-1", "Asia Pacific (Tokyo)"), ("ap-northeast-2", "Asia Pacific (Seoul)"),
   ("ap-northeast-3", "Asia Pacific (Osaka)"), ("ca-central-1", "Canada (Central)"),
   ("ca-west-1", "Canada West (Calgary)"), ("eu-central-1", "EU (Frankfurt)"),
   ("eu-central-2", "EU (Zurich)"), ("eu-west-1", "EU (Ireland)"),
   ("eu-west-2", "EU (London)"), ("eu-west-3", "EU (Paris)"),
   ("eu-south-1", "EU (Milan)"), ("eu-south-2", "EU (Spain)"),
   ("eu-north-1", "EU (Stockholm)"), ("il-central-1", "Israel (Tel Aviv)"),
   ("me-south-1", "Middle East (Bahrain)"), ("me-central-1", "Middle East (UAE)"),
   ("sa-east-1", "South America (Sao Paulo)")]

/-- `getEBSFallbackPrices` (pricing, lines 394-413): static us-east-1 rates
(base per GB-month, per IOPS-month, per MiB/s-month). -/
def getEBSFallbackPrices (volumeType : String) : CostValue × CostValue × CostValue :=
  match volumeType with
  | "gp2" => (0.10, 0, 0)
  | "gp3" => (0.08, 0.005, 0.040)
  | "io1" => (0.125, 0.065, 0)
  | "io2" => (0.125, 0.065, 0)
  | "st1" => (0.045, 0, 0)
  | "sc1" => (0.015, 0, 0)
  | "standard" => (0.05, 0, 0)
  | _ => (0.10, 0, 0)

/-- `getEBSIOPSPrice` (pricing, lines 416-427). -/
def getEBSIOPSPrice (volumeType : String) : CostValue :=
  match volumeType with
  | "gp3" => 0.005
  | "io1" => 0.065
  | "io2" => 0.065
  | _ => 0

/-- `fetchEBSPrices` (pricing, lines 334-391). `getProducts` abstracts the
Pricing Source's `GetProducts` query (by location name and volume API name);
`parse` abstracts `parsePriceFromProduct`. An empty product list or an
unparsable first product yields the static fallback rates without error. -/
def fetchEBSPrices {α : Type} (getProducts : String → String → Except String (List α))
    (parse : α → Except String CostValue) (region volumeType : String) :
    Except String (CostValue × CostValue × CostValue) :=
  match lookupAssoc regionToLocation region with
  | none => .error ("unknown region: " ++ region)
  | some locationName =>
      match getProducts locationName volumeType with
      | .error e => .error ("calling GetProducts for EBS: " ++ e)
      | .ok [] => .ok (getEBSFallbackPrices volumeType)
      | .ok (p :: _) =>
          match parse p with
          | .error _ => .ok (getEBSFallbackPrices volumeType)
          | .ok base =>
              let iops :=
                if volumeType = "gp3" ∨ volumeType = "io1" ∨ volumeType = "io2" then
                  getEBSIOPSPrice volumeType
                else 0
              let throughput := if volumeType = "gp3" then (0.040 : CostValue) else 0
              .ok (base, iops, throughput)

/-- The engine-name table of `mapRDSEngine` (pricing, lines 485-505). -/
def rdsEngineMap : List (String × String) :=
  [("mysql", "MySQL"), ("postgres", "PostgreSQL"), ("mariadb", "MariaDB"),
   ("oracle-se2", "Oracle"), ("oracle-ee", "Oracle"),
   ("sqlserver-se", "SQL Server"), ("sqlserver-ee", "SQL Server"),
   ("sqlserver-ex", "SQL Server"), ("sqlserver-web", "SQL Server"),
   ("aurora", "Aurora MySQL"), ("aurora-mysql", "Aurora MySQL"),
   ("aurora-postgresql", "Aurora PostgreSQL")]

/-- `mapRDSEngine` (pricing, lines 485-505). -/
def mapRDSEngine (engine : String) : String :=
  (lookupAssoc rdsEngineMap engine).getD engine

/-- `getRDSFallbackPrice` (pricing, lines 508-531): the base estimate is
chosen by comparing `instanceClass[7:]` — the tail of the class string from
byte index 7 on — against the size names, and doubled for Multi-AZ. -/
def getRDSFallbackPrice (instanceClass : String) (multiAZ : Bool) : CostValue :=
  let basePrice : CostValue :=
    if 7 < instanceClass.length ∧ instanceClass.drop 7 = "micro" then 0.017
    else if 7 < instanceClass.length ∧ instanceClass.drop 7 = "small" then 0.034
    else if 7 < instanceClass.length ∧ instanceClass.drop 7 = "medium" then 0.068
    else if 7 < instanceClass.length ∧ instanceClass.drop 7 = "large" then 0.136
    else if 7 < instanceClass.length ∧ instanceClass.drop 7 = "xlarge" then 0.272
    else 0.068
  if multiAZ then basePrice * 2 else basePrice

/-- `fetchRDSPrice` (pricing, lines 430-482). `getProducts` abstracts the
Pricing Source's `GetProducts` query (by instance class, location name,
database engine and deployment option); `parse` abstracts
`parsePriceFromProduct`. An empty product list yields the static fallback
estimate without error. -/
def fetchRDSPrice {α : Type}
    (getProducts : String → String → String → String → Except String (List α))
    (parse : α → Except String CostValue) (region instanceClass engine : String)
    (multiAZ : Bool) : Except String CostValue :=
  match lookupAssoc regionToLocation region with
  | none => .error ("unknown region: " ++ region)
  | some locationName =>
      let dbEngine := mapRDSEngine engine
      let deploymentOption := if multiAZ then "Multi-AZ" else "Single-AZ"
      match getProducts instanceClass locationName dbEngine deploymentOption with
      | .error e => .error ("calling GetProducts for RDS: " ++ e)
      | .ok [] => .ok (getRDSFallbackPrice instanceClass multiAZ)
      | .ok (p :: _) => parse p

/-- Sum of a projection over the values of an association map. -/
def sumTotal {σ : Type} (total : σ → ℚ) (m : List (String × σ)) : ℚ :=
  (m.map fun p => total p.2).sum

/-- The projected value stored under key `k`, or `0` when absent. -/
def totalAt {σ : Type} (total : σ → ℚ) (m : List (String × σ)) (k : String) : ℚ :=
  match lookupAssoc m k with
  | some s => total s
  | none => 0

/-- The keys of an association map. -/
def keysOf {σ : Type} (m : List (String × σ)) : List String := m.map Prod.fst

/-- Sum of `HourlyCost` over all records of the six merged lists. -/
def allCost (ec2 : List EC2Instance) (ebs : List EBSVolume) (ecs : List ECSService)
    (rds : List RDSInstance) (eks : List EKSCluster) (elb : List LoadBalancer) : ℚ :=
  (ec2.map EC2Instance.hourlyCost).sum + (ebs.map EBSVolume.hourlyCost).sum
    + (ecs.map ECSService.hourlyCost).sum + (rds.map RDSInstance.hourlyCost).sum
    + (eks.map EKSCluster.hourlyCost).sum + (elb.map LoadBalancer.hourlyCost).sum

/-- Sum of `HourlyCost` over the records whose account identifier is `k`. -/
def accountCost (k : String) (ec2 : List EC2Instance) (ebs : List EBSVolume)
    (ecs : List ECSService) (rds : List RDSInstance) (eks : List EKSCluster)
    (elb : List LoadBalancer) : ℚ :=
  ((ec2.filter fun i => i.accountID = k).map EC2Instance.hourlyCost).sum
    + ((ebs.filter fun v => v.accountID = k).map EBSVolume.hourlyCost).sum
    + ((ecs.filter fun s => s.accountID = k).map ECSService.hourlyCost).sum
    + ((rds.filter fun i => i.accountID = k).map RDSInstance.hourlyCost).sum
    + ((eks.filter fun cl => cl.accountID = k).map EKSCluster.hourlyCost).sum
    + ((elb.filter fun lb => lb.accountID = k).map LoadBalancer.hourlyCost).sum

/-- Sum of `HourlyCost` over the records whose region is `k`. -/
def regionCost (k : String) (ec2 : List EC2Instance) (ebs : List EBSVolume)
    (ecs : List ECSService) (rds : List RDSInstance) (eks : List EKSCluster)
    (elb : List LoadBalancer) : ℚ :=
  ((ec2.filter fun i => i.region = k).map EC2Instance.hourlyCost).sum
    + ((ebs.filter fun v => v.region = k).map EBSVolume.hourlyCost).sum
    + ((ecs.filter fun s => s.region = k).map ECSService.hourlyCost).sum
    + ((rds.filter fun i => i.region = k).map RDSInstance.hourlyCost).sum
    + ((eks.filter fun cl => cl.region = k).map EKSCluster.hourlyCost).sum
    + ((elb.filter fun lb => lb.region = k).map LoadBalancer.hourlyCost).sum

/-- The (account, region) fan-out pairs of a discovery run, in nested-loop
order (discovery.go 67-68). -/
def unitPairs (accounts : List Account) (regions : List String) :
    List (Account × String) :=
  accounts.flatMap fun a => regions.map fun r => (a, r)

/-- A freshly constructed provider state: empty caches, zero-valued watermark
(`NewAWSProvider`, pricing lines 46-53), with a 60-minute duration. -/
def emptyProviderState : ProviderState :=
  { ec2Cache := [], ebsCache := [], ecsCache := [], rdsCache := [],
    cacheExpiry := none, cacheDuration := 60 }

/-- A provider state with a 10-unit cache duration, used by the concrete
watermark scenarios below. -/
def c2State0 : ProviderState :=
  { ec2Cache := [], ebsCache := [], ecsCache := [], rdsCache := [],
    cacheExpiry := none, cacheDuration := 10 }

/-- State after caching the EC2 price of m5.large at time 0 (watermark 10). -/
def c2State1 : ProviderState :=
  (GetEC2Price c2State0 0 (.ok 1) "us-east-1" "m5.large").2.1

/-- State after also caching the EC2 price of t3.micro at time 0, still
inside the first validity window. -/
def c2State2 : ProviderState :=
  (GetEC2Price c2State1 0 (.ok 2) "us-east-1" "t3.micro").2.1

/-- State after a lookup of m5.large at time 11, i.e. after the shared
watermark 10 has passed: a fresh value is fetched and a new watermark 21 is
set. -/
def c2State3 : ProviderState :=
  (GetEC2Price c2State2 11 (.ok 3) "us-east-1" "m5.large").2.1

/-- A Pricing Source whose `GetProducts` always returns an empty product
list. -/
def emptyProducts : String → String → String → String → Except String (List Unit) :=
  fun _ _ _ _ => .ok []

/-- A `parsePriceFromProduct` stand-in; never reached on an empty product
list. -/
def noParse : Unit → Except String CostValue :=
  fun _ => .error "could not extract price from product"

/-- A concrete account used by the closed evaluation theorems. -/
def sampleAccount : Account := { id := "111111111111", name := "prod", roleARN := "" }

/-- A second concrete account whose unit will fail credential resolution. -/
def failedAccount : Account := { id := "222222222222", name := "dev", roleARN := "arn:aws:iam::222222222222:role/ro" }

/-- A concrete EC2 record. -/
def sampleEC2 : EC2Instance :=
  { accountID := "111111111111", accountName := "prod", region := "us-east-1",
    instanceID := "i-0abc", name := "web", instanceType := "t3.micro",
    state := "running", hourlyCost := 0.0104 }

/-- A concrete RDS record. -/
def sampleRDS : RDSInstance :=
  { accountID := "111111111111", accountName := "prod", region := "us-east-1",
    dbInstanceID := "db-1", name := "db-1", engine := "postgres",
    engineVersion := "16.1", instanceClass := "db.t4g.micro", multiAZ := false,
    storageType := "gp3", allocatedStorage := 20, state := "available",
    hourlyCost := 0.016 }

/-- A unit outcome map: `sampleAccount` succeeds with one EC2 and one RDS
record (its ELB listing call fails), `failedAccount` fails credential
resolution entirely. -/
def sampleUnit : Account → String → Option UnitCollects :=
  fun acc _ =>
    if acc = sampleAccount then
      some { ec2 := .ok [sampleEC2], ebs := .ok [], ecs := .ok [],
             rds := .ok [sampleRDS], eks := .ok [],
             elb := .error "describing load balancers: AccessDenied" }
    else none

/-- The response of the concrete discovery run over both sample accounts. -/
def sampleResponse : CostResponse :=
  discoverResourcesCore [sampleEC2] [] [] [sampleRDS] [] []

/-- A concrete raw EC2 listing: one terminated, one running, one stopped
instance. -/
def sampleRawEC2 : List RawEC2 :=
  [{ instanceId := some "i-dead", tags := [], instanceType := "m5.large",
     state := some "terminated" },
   { instanceId := some "i-0abc",
     tags := [{ key := some "Name", value := some "web" }],
     instanceType := "t3.micro", state := some "running" },
   { instanceId := some "i-0def", tags := [], instanceType := "m5.large",
     state := some "stopped" }]

/-- A pricing provider answering every EC2 lookup with a fixed rate. -/
def sampleEC2Provider : String → String → Except String CostValue :=
  fun _ _ => .ok 0.0104

/-- A concrete raw RDS listing: one available and one stopped instance. -/
def sampleRawRDS : List RawRDS :=
  [{ dbInstanceIdentifier := some "db-1", engine := some "postgres",
     engineVersion := some "16.1", dbInstanceClass := some "db.t4g.micro",
     multiAZ := some false, storageType := some "gp3",
     allocatedStorage := some 20, dbInstanceStatus := some "available" },
   { dbInstanceIdentifier := some "db-2", engine := some "mysql",
     engineVersion := some "8.0", dbInstanceClass := some "db.t4g.large",
     multiAZ := some true, storageType := some "gp2",
     allocatedStorage := some 100, dbInstanceStatus := some "stopped" }]

/-- A pricing provider answering every RDS lookup with a fixed rate. -/
def sampleRDSProvider : String → String → String → Bool → Except String CostValue :=
  fun _ _ _ _ => .ok 0.016
/-- The account list actually fanned out over: an empty caller-supplied list
is replaced by the single ambient-credential pseudo-account
(discovery.go 62-65). -/
def effectiveAccounts (accounts : List Account) : List Account :=
  if accounts.isEmpty then [{ id := "", name := "", roleARN := "" }] else accounts

/-- One family's merged list as produced by the fan-out and merge of
`DiscoverResources` (discovery.go 67-167). -/
def mergedFam {α : Type} (f : UnitCollects → Except String (List α))
    (accounts : List Account) (regions : List String)
    (unit : Account → String → Option UnitCollects) : List α :=
  ((unitPairs (effectiveAccounts accounts) regions).map fun p => unit p.1 p.2).foldl
    (fun l o => l ++ unitContrib f o) []

/-- The record that `discoverRDS` produces for the stopped instance of
`sampleRawRDS`. -/
def sampleStoppedRDSRecord : RDSInstance :=
  { accountID := "111111111111", accountName := "prod", region := "us-east-1",
    dbInstanceID := "db-2", name := "db-2", engine := "mysql",
    engineVersion := "8.0", instanceClass := "db.t4g.large", multiAZ := true,
    storageType := "gp2", allocatedStorage := 100, state := "stopped",
    hourlyCost := 0 }

/-- The record that `discoverEC2` produces for the stopped instance of
`sampleRawEC2`. -/
def sampleStoppedEC2Record : EC2Instance :=
  { accountID := "111111111111", accountName := "prod", region := "us-east-1",
    instanceID := "i-0def", name := "", instanceType := "m5.large",
    state := "stopped", hourlyCost := 0 }

/-! ### Association-map lemmas -/

theorem keysOf_cons {σ : Type} (a : String) (s : σ) (tl : List (String × σ)) :
    keysOf ((a, s) :: tl) = a :: keysOf tl := rfl

theorem lookupAssoc_setAssoc_self {β : Type} (m : List (String × β)) (k : String) (v : β) :
    lookupAssoc (setAssoc m k v) k = some v := by
  induction m with
  | nil => simp [setAssoc, lookupAssoc]
  | cons hd tl ih =>
      obtain ⟨a, s⟩ := hd
      by_cases h : a = k
      · simp [setAssoc, lookupAssoc, h]
      · simp [setAssoc, lookupAssoc, h, ih]

theorem lookupAssoc_setAssoc_ne {β : Type} (m : List (String × β)) (k k' : String) (v : β)
    (h : k' ≠ k) : lookupAssoc (setAssoc m k v) k' = lookupAssoc m k' := by
  induction m with
  | nil => simp [setAssoc, lookupAssoc, Ne.symm h]
  | cons hd tl ih =>
      obtain ⟨a, s⟩ := hd
      by_cases ha : a = k
      · subst ha
        simp [setAssoc, lookupAssoc, Ne.symm h]
      · by_cases ha' : a = k'
        · simp [setAssoc, lookupAssoc, ha, ha', h]
        · simp [setAssoc, lookupAssoc, ha, ha', ih]

theorem lookupAssoc_upsert_self {β : Type} (m : List (String × β)) (k : String)
    (fresh : β) (upd : β → β) :
    lookupAssoc (upsert m k fresh upd) k = some (upd ((lookupAssoc m k).getD fresh)) := by
  induction m with
  | nil => simp [upsert, lookupAssoc]
  | cons hd tl ih =>
      obtain ⟨a, s⟩ := hd
      by_cases h : a = k
      · simp [upsert, lookupAssoc, h]
      · simp [upsert, lookupAssoc, h, ih]

theorem lookupAssoc_upsert_ne {β : Type} (m : List (String × β)) (k k' : String)
    (fresh : β) (upd : β → β) (h : k' ≠ k) :
    lookupAssoc (upsert m k fresh upd) k' = lookupAssoc m k' := by
  induction m with
  | nil => simp [upsert, lookupAssoc, Ne.symm h]
  | cons hd tl ih =>
      obtain ⟨a, s⟩ := hd
      by_cases ha : a = k
      · subst ha
        simp [upsert, lookupAssoc, Ne.symm h]
      · by_cases ha' : a = k'
        · simp [upsert, lookupAssoc, ha, ha', h]
        · simp [upsert, lookupAssoc, ha, ha', ih]

theorem sumTotal_upsert {σ : Type} (total : σ → ℚ) (m : List (String × σ)) (k : String)
    (fresh : σ) (upd : σ → σ) (δ : ℚ) (hfresh : total fresh = 0)
    (hupd : ∀ s, total (upd s) = total s + δ) :
    sumTotal total (upsert m k fresh upd) = sumTotal total m + δ := by
  induction m with
  | nil => simp [upsert, sumTotal, hupd, hfresh]
  | cons hd tl ih =>
      obtain ⟨a, s⟩ := hd
      by_cases h : a = k
      · simp [upsert, sumTotal, h, hupd]
        ring
      · simp only [upsert, if_neg h]
        simp only [sumTotal, List.map_cons, List.sum_cons] at ih ⊢
        rw [ih]
        ring

theorem totalAt_upsert {σ : Type} (total : σ → ℚ) (m : List (String × σ)) (k k' : String)
    (fresh : σ) (upd : σ → σ) (δ : ℚ) (hfresh : total fresh = 0)
    (hupd : ∀ s, total (upd s) = total s + δ) :
    totalAt total (upsert m k fresh upd) k' =
      totalAt total m k' + (if k = k' then δ else 0) := by
  by_cases h : k = k'
  · subst h
    rw [totalAt, lookupAssoc_upsert_self]
    cases hm : lookupAssoc m k with
    | none => simp [totalAt, hm, hupd, hfresh]
    | some s => simp [totalAt, hm, hupd]
  · rw [totalAt, lookupAssoc_upsert_ne m k k' fresh upd (Ne.symm h)]
    simp [totalAt, h]

theorem keysOf_upsert_mem {σ : Type} (m : List (String × σ)) (k : String)
    (fresh : σ) (upd : σ → σ) (h : k ∈ keysOf m) :
    keysOf (upsert m k fresh upd) = keysOf m := by
  induction m with
  | nil => simp [keysOf] at h
  | cons hd tl ih =>
      obtain ⟨a, s⟩ := hd
      by_cases ha : a = k
      · simp [upsert, ha, keysOf_cons]
      · rw [keysOf_cons] at h
        rcases List.mem_cons.mp h with heq | hmem
        · exact absurd heq.symm ha
        · simp only [upsert, if_neg ha, keysOf_cons, ih hmem]

theorem keysOf_upsert_not_mem {σ : Type} (m : List (String × σ)) (k : String)
    (fresh : σ) (upd : σ → σ) (h : k ∉ keysOf m) :
    keysOf (upsert m k fresh upd) = keysOf m ++ [k] := by
  induction m with
  | nil => simp [upsert, keysOf]
  | cons hd tl ih =>
      obtain ⟨a, s⟩ := hd
      rw [keysOf_cons] at h
      have h1 : k ≠ a := fun hh => h (hh ▸ List.mem_cons_self _ _)
      have h2 : k ∉ keysOf tl := fun hh => h (List.mem_cons_of_mem _ hh)
      simp only [upsert, if_neg (Ne.symm h1), keysOf_cons, ih h2, List.cons_append]

theorem nodup_keysOf_upsert {σ : Type} (m : List (String × σ)) (k : String)
    (fresh : σ) (upd : σ → σ) (h : (keysOf m).Nodup) :
    (keysOf (upsert m k fresh upd)).Nodup := by
  by_cases hk : k ∈ keysOf m
  · rwa [keysOf_upsert_mem m k fresh upd hk]
  · rw [keysOf_upsert_not_mem m k fresh upd hk]
    simp [List.nodup_append, h, hk]

theorem keyInv_upsert {σ : Type} (keyOf : σ → String) (m : List (String × σ)) (k : String)
    (fresh : σ) (upd : σ → σ) (hfresh : keyOf fresh = k)
    (hupd : ∀ s, keyOf (upd s) = keyOf s)
    (hm : ∀ p ∈ m, keyOf p.2 = p.1) :
    ∀ p ∈ upsert m k fresh upd, keyOf p.2 = p.1 := by
  induction m with
  | nil =>
      intro p hp
      simp [upsert] at hp
      subst hp
      simp [hupd, hfresh]
  | cons hd tl ih =>
      obtain ⟨a, s⟩ := hd
      intro p hp
      by_cases ha : a = k
      · simp [upsert, ha] at hp
        rcases hp with hp | hp
        · subst hp
          simp only [hupd]
          exact ha ▸ hm (a, s) (List.mem_cons_self _ _)
        · exact hm p (List.mem_cons_of_mem _ hp)
      · simp only [upsert, if_neg ha] at hp
        rcases List.mem_cons.mp hp with hp | hp
        · subst hp
          exact hm (a, s) (List.mem_cons_self _ _)
        · exact ih (fun q hq => hm q (List.mem_cons_of_mem _ hq)) p hp

theorem lookupAssoc_of_mem_nodup {σ : Type} (m : List (String × σ)) (k : String) (s : σ)
    (hnd : (keysOf m).Nodup) (hmem : (k, s) ∈ m) : lookupAssoc m k = some s := by
  induction m with
  | nil => simp at hmem
  | cons hd tl ih =>
      obtain ⟨a, v⟩ := hd
      rw [keysOf_cons] at hnd
      rcases List.mem_cons.mp hmem with hp | hp
      · cases hp
        simp [lookupAssoc]
      · have hak : a ≠ k := by
          intro hh
          subst hh
          exact (List.nodup_cons.mp hnd).1
            (by simpa [keysOf] using List.mem_map_of_mem Prod.fst hp)
        simp [lookupAssoc, hak, ih (List.nodup_cons.mp hnd).2 hp]

/-! ### Fold lemmas -/

theorem foldl_add_eq_sum {α : Type} (c : α → ℚ) (l : List α) :
    ∀ init : ℚ, l.foldl (fun acc a => acc + c a) init = init + (l.map c).sum := by
  induction l with
  | nil => intro init; simp
  | cons a l ih =>
      intro init
      simp only [List.foldl_cons, List.map_cons, List.sum_cons]
      rw [ih]
      ring

theorem foldl_append_eq_flatMap {β γ : Type} (f : β → List γ) (l : List β) :
    ∀ init : List γ, l.foldl (fun acc b => acc ++ f b) init = init ++ l.flatMap f := by
  induction l with
  | nil => intro init; simp
  | cons b l ih =>
      intro init
      simp only [List.foldl_cons, List.flatMap_cons]
      rw [ih, List.append_assoc]

theorem sumTotal_foldl {σ α : Type} (total : σ → ℚ)
    (step : List (String × σ) → α → List (String × σ)) (c : α → ℚ)
    (hstep : ∀ m a, sumTotal total (step m a) = sumTotal total m + c a) (l : List α) :
    ∀ m, sumTotal total (l.foldl step m) = sumTotal total m + (l.map c).sum := by
  induction l with
  | nil => intro m; simp
  | cons a l ih =>
      intro m
      simp only [List.foldl_cons, List.map_cons, List.sum_cons]
      rw [ih, hstep]
      ring

theorem totalAt_foldl {σ α : Type} (total : σ → ℚ)
    (step : List (String × σ) → α → List (String × σ)) (κ : α → String) (c : α → ℚ)
    (hstep : ∀ m a k, totalAt total (step m a) k = totalAt total m k + (if κ a = k then c a else 0))
    (l : List α) (k : String) :
    ∀ m, totalAt total (l.foldl step m) k
      = totalAt total m k + ((l.filter fun a => κ a = k).map c).sum := by
  induction l with
  | nil => intro m; simp
  | cons a l ih =>
      intro m
      simp only [List.foldl_cons, List.filter_cons]
      by_cases h : κ a = k
      · rw [ih, hstep]
        simp [h]
        ring
      · rw [ih, hstep]
        simp [h]

theorem keyInv_foldl {σ α : Type} (keyOf : σ → String)
    (step : List (String × σ) → α → List (String × σ))
    (hstep : ∀ m a, (∀ p ∈ m, keyOf p.2 = p.1) → ∀ p ∈ step m a, keyOf p.2 = p.1)
    (l : List α) :
    ∀ m, (∀ p ∈ m, keyOf p.2 = p.1) → ∀ p ∈ l.foldl step m, keyOf p.2 = p.1 := by
  induction l with
  | nil => intro m hm; simpa using hm
  | cons a l ih =>
      intro m hm
      simp only [List.foldl_cons]
      exact ih (step m a) (hstep m a hm)

theorem nodup_keysOf_foldl {σ α : Type}
    (step : List (String × σ) → α → List (String × σ))
    (hstep : ∀ m a, (keysOf m).Nodup → (keysOf (step m a)).Nodup) (l : List α) :
    ∀ m, (keysOf m).Nodup → (keysOf (l.foldl step m)).Nodup := by
  induction l with
  | nil => intro m hm; simpa using hm
  | cons a l ih =>
      intro m hm
      simp only [List.foldl_cons]
      exact ih (step m a) (hstep m a hm)

/-! ### Per-family step lemmas for the summary builders -/

theorem sumTotal_accountStepEC2 (m : List (String × AccountSummary)) (a : EC2Instance) :
    sumTotal AccountSummary.totalCost (accountStepEC2 m a)
      = sumTotal AccountSummary.totalCost m + a.hourlyCost :=
  sumTotal_upsert AccountSummary.totalCost m a.accountID (freshAccountSummary a.accountID a.accountName)
    (fun s => { s with ec2Count := s.ec2Count + 1, totalCost := s.totalCost + a.hourlyCost })
    a.hourlyCost rfl (fun _ => rfl)

theorem totalAt_accountStepEC2 (m : List (String × AccountSummary)) (a : EC2Instance) (k : String) :
    totalAt AccountSummary.totalCost (accountStepEC2 m a) k
      = totalAt AccountSummary.totalCost m k + (if a.accountID = k then a.hourlyCost else 0) :=
  totalAt_upsert AccountSummary.totalCost m a.accountID k (freshAccountSummary a.accountID a.accountName)
    (fun s => { s with ec2Count := s.ec2Count + 1, totalCost := s.totalCost + a.hourlyCost })
    a.hourlyCost rfl (fun _ => rfl)

theorem keyInv_accountStepEC2 (m : List (String × AccountSummary)) (a : EC2Instance)
    (hm : ∀ p ∈ m, AccountSummary.accountID p.2 = p.1) :
    ∀ p ∈ accountStepEC2 m a, AccountSummary.accountID p.2 = p.1 :=
  keyInv_upsert AccountSummary.accountID m a.accountID (freshAccountSummary a.accountID a.accountName)
    (fun s => { s with ec2Count := s.ec2Count + 1, totalCost := s.totalCost + a.hourlyCost })
    rfl (fun _ => rfl) hm

theorem nodup_accountStepEC2 (m : List (String × AccountSummary)) (a : EC2Instance)
    (hm : (keysOf m).Nodup) : (keysOf (accountStepEC2 m a)).Nodup :=
  nodup_keysOf_upsert m a.accountID (freshAccountSummary a.accountID a.accountName)
    (fun s => { s with ec2Count := s.ec2Count + 1, totalCost := s.totalCost + a.hourlyCost })
    hm

theorem sumTotal_accountStepEBS (m : List (String × AccountSummary)) (a : EBSVolume) :
    sumTotal AccountSummary.totalCost (accountStepEBS m a)
      = sumTotal AccountSummary.totalCost m + a.hourlyCost :=
  sumTotal_upsert AccountSummary.totalCost m a.accountID (freshAccountSummary a.accountID a.accountName)
    (fun s => { s with ebsCount := s.ebsCount + 1, totalCost := s.totalCost + a.hourlyCost })
    a.hourlyCost rfl (fun _ => rfl)

theorem totalAt_accountStepEBS (m : List (String × AccountSummary)) (a : EBSVolume) (k : String) :
    totalAt AccountSummary.totalCost (accountStepEBS m a) k
      = totalAt AccountSummary.totalCost m k + (if a.accountID = k then a.hourlyCost else 0) :=
  totalAt_upsert AccountSummary.totalCost m a.accountID k (freshAccountSummary a.accountID a.accountName)
    (fun s => { s with ebsCount := s.ebsCount + 1, totalCost := s.totalCost + a.hourlyCost })
    a.hourlyCost rfl (fun _ => rfl)

theorem keyInv_accountStepEBS (m : List (String × AccountSummary)) (a : EBSVolume)
    (hm : ∀ p ∈ m, AccountSummary.accountID p.2 = p.1) :
    ∀ p ∈ accountStepEBS m a, AccountSummary.accountID p.2 = p.1 :=
  keyInv_upsert AccountSummary.accountID m a.accountID (freshAccountSummary a.accountID a.accountName)
    (fun s => { s with ebsCount := s.ebsCount + 1, totalCost := s.totalCost + a.hourlyCost })
    rfl (fun _ => rfl) hm

theorem nodup_accountStepEBS (m : List (String × AccountSummary)) (a : EBSVolume)
    (hm : (keysOf m).Nodup) : (keysOf (accountStepEBS m a)).Nodup :=
  nodup_keysOf_upsert m a.accountID (freshAccountSummary a.accountID a.accountName)
    (fun s => { s with ebsCount := s.ebsCount + 1, totalCost := s.totalCost + a.hourlyCost })
    hm

theorem sumTotal_accountStepECS (m : List (String × AccountSummary)) (a : ECSService) :
    sumTotal AccountSummary.totalCost (accountStepECS m a)
      = sumTotal AccountSummary.totalCost m + a.hourlyCost :=
  sumTotal_upsert AccountSummary.totalCost m a.accountID (freshAccountSummary a.accountID a.accountName)
    (fun s => { s with ecsCount := s.ecsCount + 1, totalCost := s.totalCost + a.hourlyCost })
    a.hourlyCost rfl (fun _ => rfl)

theorem totalAt_accountStepECS (m : List (String × AccountSummary)) (a : ECSService) (k : String) :
    totalAt AccountSummary.totalCost (accountStepECS m a) k
      = totalAt AccountSummary.totalCost m k + (if a.accountID = k then a.hourlyCost else 0) :=
  totalAt_upsert AccountSummary.totalCost m a.accountID k (freshAccountSummary a.accountID a.accountName)
    (fun s => { s with ecsCount := s.ecsCount + 1, totalCost := s.totalCost + a.hourlyCost })
    a.hourlyCost rfl (fun _ => rfl)

theorem keyInv_accountStepECS (m : List (String × AccountSummary)) (a : ECSService)
    (hm : ∀ p ∈ m, AccountSummary.accountID p.2 = p.1) :
    ∀ p ∈ accountStepECS m a, AccountSummary.accountID p.2 = p.1 :=
  keyInv_upsert AccountSummary.accountID m a.accountID (freshAccountSummary a.accountID a.accountName)
    (fun s => { s with ecsCount := s.ecsCount + 1, totalCost := s.totalCost + a.hourlyCost })
    rfl (fun _ => rfl) hm

theorem nodup_accountStepECS (m : List (String × AccountSummary)) (a : ECSService)
    (hm : (keysOf m).Nodup) : (keysOf (accountStepECS m a)).Nodup :=
  nodup_keysOf_upsert m a.accountID (freshAccountSummary a.accountID a.accountName)
    (fun s => { s with ecsCount := s.ecsCount + 1, totalCost := s.totalCost + a.hourlyCost })
    hm

theorem sumTotal_accountStepRDS (m : List (String × AccountSummary)) (a : RDSInstance) :
    sumTotal AccountSummary.totalCost (accountStepRDS m a)
      = sumTotal AccountSummary.totalCost m + a.hourlyCost :=
  sumTotal_upsert AccountSummary.totalCost m a.accountID (freshAccountSummary a.accountID a.accountName)
    (fun s => { s with rdsCount := s.rdsCount + 1, totalCost := s.totalCost + a.hourlyCost })
    a.hourlyCost rfl (fun _ => rfl)

theorem totalAt_accountStepRDS (m : List (String × AccountSummary)) (a : RDSInstance) (k : String) :
    totalAt AccountSummary.totalCost (accountStepRDS m a) k
      = totalAt AccountSummary.totalCost m k + (if a.accountID = k then a.hourlyCost else 0) :=
  totalAt_upsert AccountSummary.totalCost m a.accountID k (freshAccountSummary a.accountID a.accountName)
    (fun s => { s with rdsCount := s.rdsCount + 1, totalCost := s.totalCost + a.hourlyCost })
    a.hourlyCost rfl (fun _ => rfl)

theorem keyInv_accountStepRDS (m : List (String × AccountSummary)) (a : RDSInstance)
    (hm : ∀ p ∈ m, AccountSummary.accountID p.2 = p.1) :
    ∀ p ∈ accountStepRDS m a, AccountSummary.accountID p.2 = p.1 :=
  keyInv_upsert AccountSummary.accountID m a.accountID (freshAccountSummary a.accountID a.accountName)
    (fun s => { s with rdsCount := s.rdsCount + 1, totalCost := s.totalCost + a.hourlyCost })
    rfl (fun _ => rfl) hm

theorem nodup_accountStepRDS (m : List (String × AccountSummary)) (a : RDSInstance)
    (hm : (keysOf m).Nodup) : (keysOf (accountStepRDS m a)).Nodup :=
  nodup_keysOf_upsert m a.accountID (freshAccountSummary a.accountID a.accountName)
    (fun s => { s with rdsCount := s.rdsCount + 1, totalCost := s.totalCost + a.hourlyCost })
    hm

theorem sumTotal_accountStepEKS (m : List (String × AccountSummary)) (a : EKSCluster) :
    sumTotal AccountSummary.totalCost (accountStepEKS m a)
      = sumTotal AccountSummary.totalCost m + a.hourlyCost :=
  sumTotal_upsert AccountSummary.totalCost m a.accountID (freshAccountSummary a.accountID a.accountName)
    (fun s => { s with eksCount := s.eksCount + 1, totalCost := s.totalCost + a.hourlyCost })
    a.hourlyCost rfl (fun _ => rfl)

theorem totalAt_accountStepEKS (m : List (String × AccountSummary)) (a : EKSCluster) (k : String) :
    totalAt AccountSummary.totalCost (accountStepEKS m a) k
      = totalAt AccountSummary.totalCost m k + (if a.accountID = k then a.hourlyCost else 0) :=
  totalAt_upsert AccountSummary.totalCost m a.accountID k (freshAccountSummary a.accountID a.accountName)
    (fun s => { s with eksCount := s.eksCount + 1, totalCost := s.totalCost + a.hourlyCost })
    a.hourlyCost rfl (fun _ => rfl)

theorem keyInv_accountStepEKS (m : List (String × AccountSummary)) (a : EKSCluster)
    (hm : ∀ p ∈ m, AccountSummary.accountID p.2 = p.1) :
    ∀ p ∈ accountStepEKS m a, AccountSummary.accountID p.2 = p.1 :=
  keyInv_upsert AccountSummary.accountID m a.accountID (freshAccountSummary a.accountID a.accountName)
    (fun s => { s with eksCount := s.eksCount + 1, totalCost := s.totalCost + a.hourlyCost })
    rfl (fun _ => rfl) hm

theorem nodup_accountStepEKS (m : List (String × AccountSummary)) (a : EKSCluster)
    (hm : (keysOf m).Nodup) : (keysOf (accountStepEKS m a)).Nodup :=
  nodup_keysOf_upsert m a.accountID (freshAccountSummary a.accountID a.accountName)
    (fun s => { s with eksCount := s.eksCount + 1, totalCost := s.totalCost + a.hourlyCost })
    hm

theorem sumTotal_accountStepELB (m : List (String × AccountSummary)) (a : LoadBalancer) :
    sumTotal AccountSummary.totalCost (accountStepELB m a)
      = sumTotal AccountSummary.totalCost m + a.hourlyCost :=
  sumTotal_upsert AccountSummary.totalCost m a.accountID (freshAccountSummary a.accountID a.accountName)
    (fun s => { s with elbCount := s.elbCount + 1, totalCost := s.totalCost + a.hourlyCost })
    a.hourlyCost rfl (fun _ => rfl)

theorem totalAt_accountStepELB (m : List (String × AccountSummary)) (a : LoadBalancer) (k : String) :
    totalAt AccountSummary.totalCost (accountStepELB m a) k
      = totalAt AccountSummary.totalCost m k + (if a.accountID = k then a.hourlyCost else 0) :=
  totalAt_upsert AccountSummary.totalCost m a.accountID k (freshAccountSummary a.accountID a.accountName)
    (fun s => { s with elbCount := s.elbCount + 1, totalCost := s.totalCost + a.hourlyCost })
    a.hourlyCost rfl (fun _ => rfl)

theorem keyInv_accountStepELB (m : List (String × AccountSummary)) (a : LoadBalancer)
    (hm : ∀ p ∈ m, AccountSummary.accountID p.2 = p.1) :
    ∀ p ∈ accountStepELB m a, AccountSummary.accountID p.2 = p.1 :=
  keyInv_upsert AccountSummary.accountID m a.accountID (freshAccountSummary a.accountID a.accountName)
    (fun s => { s with elbCount := s.elbCount + 1, totalCost := s.totalCost + a.hourlyCost })
    rfl (fun _ => rfl) hm

theorem nodup_accountStepELB (m : List (String × AccountSummary)) (a : LoadBalancer)
    (hm : (keysOf m).Nodup) : (keysOf (accountStepELB m a)).Nodup :=
  nodup_keysOf_upsert m a.accountID (freshAccountSummary a.accountID a.accountName)
    (fun s => { s with elbCount := s.elbCount + 1, totalCost := s.totalCost + a.hourlyCost })
    hm

theorem sumTotal_regionStepEC2 (m : List (String × RegionSummary)) (a : EC2Instance) :
    sumTotal RegionSummary.totalCost (regionStepEC2 m a)
      = sumTotal RegionSummary.totalCost m + a.hourlyCost :=
  sumTotal_upsert RegionSummary.totalCost m a.region (freshRegionSummary a.region)
    (fun s => { s with ec2Count := s.ec2Count + 1, totalCost := s.totalCost + a.hourlyCost })
    a.hourlyCost rfl (fun _ => rfl)

theorem totalAt_regionStepEC2 (m : List (String × RegionSummary)) (a : EC2Instance) (k : String) :
    totalAt RegionSummary.totalCost (regionStepEC2 m a) k
      = totalAt RegionSummary.totalCost m k + (if a.region = k then a.hourlyCost else 0) :=
  totalAt_upsert RegionSummary.totalCost m a.region k (freshRegionSummary a.region)
    (fun s => { s with ec2Count := s.ec2Count + 1, totalCost := s.totalCost + a.hourlyCost })
    a.hourlyCost rfl (fun _ => rfl)

theorem keyInv_regionStepEC2 (m : List (String × RegionSummary)) (a : EC2Instance)
    (hm : ∀ p ∈ m, RegionSummary.region p.2 = p.1) :
    ∀ p ∈ regionStepEC2 m a, RegionSummary.region p.2 = p.1 :=
  keyInv_upsert RegionSummary.region m a.region (freshRegionSummary a.region)
    (fun s => { s with ec2Count := s.ec2Count + 1, totalCost := s.totalCost + a.hourlyCost })
    rfl (fun _ => rfl) hm

theorem nodup_regionStepEC2 (m : List (String × RegionSummary)) (a : EC2Instance)
    (hm : (keysOf m).Nodup) : (keysOf (regionStepEC2 m a)).Nodup :=
  nodup_keysOf_upsert m a.region (freshRegionSummary a.region)
    (fun s => { s with ec2Count := s.ec2Count + 1, totalCost := s.totalCost + a.hourlyCost })
    hm

theorem sumTotal_regionStepEBS (m : List (String × RegionSummary)) (a : EBSVolume) :
    sumTotal RegionSummary.totalCost (regionStepEBS m a)
      = sumTotal RegionSummary.totalCost m + a.hourlyCost :=
  sumTotal_upsert RegionSummary.totalCost m a.region (freshRegionSummary a.region)
    (fun s => { s with ebsCount := s.ebsCount + 1, totalCost := s.totalCost + a.hourlyCost })
    a.hourlyCost rfl (fun _ => rfl)

theorem totalAt_regionStepEBS (m : List (String × RegionSummary)) (a : EBSVolume) (k : String) :
    totalAt RegionSummary.totalCost (regionStepEBS m a) k
      = totalAt RegionSummary.totalCost m k + (if a.region = k then a.hourlyCost else 0) :=
  totalAt_upsert RegionSummary.totalCost m a.region k (freshRegionSummary a.region)
    (fun s => { s with ebsCount := s.ebsCount + 1, totalCost := s.totalCost + a.hourlyCost })
    a.hourlyCost rfl (fun _ => rfl)

theorem keyInv_regionStepEBS (m : List (String × RegionSummary)) (a : EBSVolume)
    (hm : ∀ p ∈ m, RegionSummary.region p.2 = p.1) :
    ∀ p ∈ regionStepEBS m a, RegionSummary.region p.2 = p.1 :=
  keyInv_upsert RegionSummary.region m a.region (freshRegionSummary a.region)
    (fun s => { s with ebsCount := s.ebsCount + 1, totalCost := s.totalCost + a.hourlyCost })
    rfl (fun _ => rfl) hm

theorem nodup_regionStepEBS (m : List (String × RegionSummary)) (a : EBSVolume)
    (hm : (keysOf m).Nodup) : (keysOf (regionStepEBS m a)).Nodup :=
  nodup_keysOf_upsert m a.region (freshRegionSummary a.region)
    (fun s => { s with ebsCount := s.ebsCount + 1, totalCost := s.totalCost + a.hourlyCost })
    hm

theorem sumTotal_regionStepECS (m : List (String × RegionSummary)) (a : ECSService) :
    sumTotal RegionSummary.totalCost (regionStepECS m a)
      = sumTotal RegionSummary.totalCost m + a.hourlyCost :=
  sumTotal_upsert RegionSummary.totalCost m a.region (freshRegionSummary a.region)
    (fun s => { s with ecsCount := s.ecsCount + 1, totalCost := s.totalCost + a.hourlyCost })
    a.hourlyCost rfl (fun _ => rfl)

theorem totalAt_regionStepECS (m : List (String × RegionSummary)) (a : ECSService) (k : String) :
    totalAt RegionSummary.totalCost (regionStepECS m a) k
      = totalAt RegionSummary.totalCost m k + (if a.region = k then a.hourlyCost else 0) :=
  totalAt_upsert RegionSummary.totalCost m a.region k (freshRegionSummary a.region)
    (fun s => { s with ecsCount := s.ecsCount + 1, totalCost := s.totalCost + a.hourlyCost })
    a.hourlyCost rfl (fun _ => rfl)

theorem keyInv_regionStepECS (m : List (String × RegionSummary)) (a : ECSService)
    (hm : ∀ p ∈ m, RegionSummary.region p.2 = p.1) :
    ∀ p ∈ regionStepECS m a, RegionSummary.region p.2 = p.1 :=
  keyInv_upsert RegionSummary.region m a.region (freshRegionSummary a.region)
    (fun s => { s with ecsCount := s.ecsCount + 1, totalCost := s.totalCost + a.hourlyCost })
    rfl (fun _ => rfl) hm

theorem nodup_regionStepECS (m : List (String × RegionSummary)) (a : ECSService)
    (hm : (keysOf m).Nodup) : (keysOf (regionStepECS m a)).Nodup :=
  nodup_keysOf_upsert m a.region (freshRegionSummary a.region)
    (fun s => { s with ecsCount := s.ecsCount + 1, totalCost := s.totalCost + a.hourlyCost })
    hm

theorem sumTotal_regionStepRDS (m : List (String × RegionSummary)) (a : RDSInstance) :
    sumTotal RegionSummary.totalCost (regionStepRDS m a)
      = sumTotal RegionSummary.totalCost m + a.hourlyCost :=
  sumTotal_upsert RegionSummary.totalCost m a.region (freshRegionSummary a.region)
    (fun s => { s with rdsCount := s.rdsCount + 1, totalCost := s.totalCost + a.hourlyCost })
    a.hourlyCost rfl (fun _ => rfl)

theorem totalAt_regionStepRDS (m : List (String × RegionSummary)) (a : RDSInstance) (k : String) :
    totalAt RegionSummary.totalCost (regionStepRDS m a) k
      = totalAt RegionSummary.totalCost m k + (if a.region = k then a.hourlyCost else 0) :=
  totalAt_upsert RegionSummary.totalCost m a.region k (freshRegionSummary a.region)
    (fun s => { s with rdsCount := s.rdsCount + 1, totalCost := s.totalCost + a.hourlyCost })
    a.hourlyCost rfl (fun _ => rfl)

theorem keyInv_regionStepRDS (m : List (String × RegionSummary)) (a : RDSInstance)
    (hm : ∀ p ∈ m, RegionSummary.region p.2 = p.1) :
    ∀ p ∈ regionStepRDS m a, RegionSummary.region p.2 = p.1 :=
  keyInv_upsert RegionSummary.region m a.region (freshRegionSummary a.region)
    (fun s => { s with rdsCount := s.rdsCount + 1, totalCost := s.totalCost + a.hourlyCost })
    rfl (fun _ => rfl) hm

theorem nodup_regionStepRDS (m : List (String × RegionSummary)) (a : RDSInstance)
    (hm : (keysOf m).Nodup) : (keysOf (regionStepRDS m a)).Nodup :=
  nodup_keysOf_upsert m a.region (freshRegionSummary a.region)
    (fun s => { s with rdsCount := s.rdsCount + 1, totalCost := s.totalCost + a.hourlyCost })
    hm

theorem sumTotal_regionStepEKS (m : List (String × RegionSummary)) (a : EKSCluster) :
    sumTotal RegionSummary.totalCost (regionStepEKS m a)
      = sumTotal RegionSummary.totalCost m + a.hourlyCost :=
  sumTotal_upsert RegionSummary.totalCost m a.region (freshRegionSummary a.region)
    (fun s => { s with eksCount := s.eksCount + 1, totalCost := s.totalCost + a.hourlyCost })
    a.hourlyCost rfl (fun _ => rfl)

theorem totalAt_regionStepEKS (m : List (String × RegionSummary)) (a : EKSCluster) (k : String) :
    totalAt RegionSummary.totalCost (regionStepEKS m a) k
      = totalAt RegionSummary.totalCost m k + (if a.region = k then a.hourlyCost else 0) :=
  totalAt_upsert RegionSummary.totalCost m a.region k (freshRegionSummary a.region)
    (fun s => { s with eksCount := s.eksCount + 1, totalCost := s.totalCost + a.hourlyCost })
    a.hourlyCost rfl (fun _ => rfl)

theorem keyInv_regionStepEKS (m : List (String × RegionSummary)) (a : EKSCluster)
    (hm : ∀ p ∈ m, RegionSummary.region p.2 = p.1) :
    ∀ p ∈ regionStepEKS m a, RegionSummary.region p.2 = p.1 :=
  keyInv_upsert RegionSummary.region m a.region (freshRegionSummary a.region)
    (fun s => { s with eksCount := s.eksCount + 1, totalCost := s.totalCost + a.hourlyCost })
    rfl (fun _ => rfl) hm

theorem nodup_regionStepEKS (m : List (String × RegionSummary)) (a : EKSCluster)
    (hm : (keysOf m).Nodup) : (keysOf (regionStepEKS m a)).Nodup :=
  nodup_keysOf_upsert m a.region (freshRegionSummary a.region)
    (fun s => { s with eksCount := s.eksCount + 1, totalCost := s.totalCost + a.hourlyCost })
    hm

theorem sumTotal_regionStepELB (m : List (String × RegionSummary)) (a : LoadBalancer) :
    sumTotal RegionSummary.totalCost (regionStepELB m a)
      = sumTotal RegionSummary.totalCost m + a.hourlyCost :=
  sumTotal_upsert RegionSummary.totalCost m a.region (freshRegionSummary a.region)
    (fun s => { s with elbCount := s.elbCount + 1, totalCost := s.totalCost + a.hourlyCost })
    a.hourlyCost rfl (fun _ => rfl)

theorem totalAt_regionStepELB (m : List (String × RegionSummary)) (a : LoadBalancer) (k : String) :
    totalAt RegionSummary.totalCost (regionStepELB m a) k
      = totalAt RegionSummary.totalCost m k + (if a.region = k then a.hourlyCost else 0) :=
  totalAt_upsert RegionSummary.totalCost m a.region k (freshRegionSummary a.region)
    (fun s => { s with elbCount := s.elbCount + 1, totalCost := s.totalCost + a.hourlyCost })
    a.hourlyCost rfl (fun _ => rfl)

theorem keyInv_regionStepELB (m : List (String × RegionSummary)) (a : LoadBalancer)
    (hm : ∀ p ∈ m, RegionSummary.region p.2 = p.1) :
    ∀ p ∈ regionStepELB m a, RegionSummary.region p.2 = p.1 :=
  keyInv_upsert RegionSummary.region m a.region (freshRegionSummary a.region)
    (fun s => { s with elbCount := s.elbCount + 1, totalCost := s.totalCost + a.hourlyCost })
    rfl (fun _ => rfl) hm

theorem nodup_regionStepELB (m : List (String × RegionSummary)) (a : LoadBalancer)
    (hm : (keysOf m).Nodup) : (keysOf (regionStepELB m a)).Nodup :=
  nodup_keysOf_upsert m a.region (freshRegionSummary a.region)
    (fun s => { s with elbCount := s.elbCount + 1, totalCost := s.totalCost + a.hourlyCost })
    hm

/-! ### The summary builders compute grouped cost sums -/

theorem buildAccountSummaries_spec (e : List EC2Instance) (b : List EBSVolume)
    (c : List ECSService) (r : List RDSInstance) (ks : List EKSCluster)
    (ls : List LoadBalancer) :
    (∀ s ∈ buildAccountSummaries e b c r ks ls,
        s.totalCost = accountCost s.accountID e b c r ks ls)
    ∧ ((buildAccountSummaries e b c r ks ls).map AccountSummary.totalCost).sum
        = allCost e b c r ks ls := by
  have hinv : ∀ p ∈ ls.foldl accountStepELB (ks.foldl accountStepEKS (r.foldl accountStepRDS
      (c.foldl accountStepECS (b.foldl accountStepEBS (e.foldl accountStepEC2
        ([] : List (String × AccountSummary))))))), AccountSummary.accountID p.2 = p.1 := by
    apply keyInv_foldl _ _ keyInv_accountStepELB
    apply keyInv_foldl _ _ keyInv_accountStepEKS
    apply keyInv_foldl _ _ keyInv_accountStepRDS
    apply keyInv_foldl _ _ keyInv_accountStepECS
    apply keyInv_foldl _ _ keyInv_accountStepEBS
    apply keyInv_foldl _ _ keyInv_accountStepEC2
    simp
  have hnd : (keysOf (ls.foldl accountStepELB (ks.foldl accountStepEKS (r.foldl accountStepRDS
      (c.foldl accountStepECS (b.foldl accountStepEBS (e.foldl accountStepEC2
        ([] : List (String × AccountSummary))))))))).Nodup := by
    apply nodup_keysOf_foldl _ nodup_accountStepELB
    apply nodup_keysOf_foldl _ nodup_accountStepEKS
    apply nodup_keysOf_foldl _ nodup_accountStepRDS
    apply nodup_keysOf_foldl _ nodup_accountStepECS
    apply nodup_keysOf_foldl _ nodup_accountStepEBS
    apply nodup_keysOf_foldl _ nodup_accountStepEC2
    simp [keysOf]
  constructor
  · intro s hs
    obtain ⟨⟨k0, s0⟩, hp, rfl⟩ := List.mem_map.mp hs
    have hkey : AccountSummary.accountID s0 = k0 := hinv (k0, s0) hp
    have hlook := lookupAssoc_of_mem_nodup _ k0 s0 hnd hp
    have t1 := totalAt_foldl AccountSummary.totalCost accountStepEC2 _
      EC2Instance.hourlyCost totalAt_accountStepEC2 e k0 []
    have t2 := totalAt_foldl AccountSummary.totalCost accountStepEBS _
      EBSVolume.hourlyCost totalAt_accountStepEBS b k0 (e.foldl accountStepEC2 [])
    have t3 := totalAt_foldl AccountSummary.totalCost accountStepECS _
      ECSService.hourlyCost totalAt_accountStepECS c k0
      (b.foldl accountStepEBS (e.foldl accountStepEC2 []))
    have t4 := totalAt_foldl AccountSummary.totalCost accountStepRDS _
      RDSInstance.hourlyCost totalAt_accountStepRDS r k0
      (c.foldl accountStepECS (b.foldl accountStepEBS (e.foldl accountStepEC2 [])))
    have t5 := totalAt_foldl AccountSummary.totalCost accountStepEKS _
      EKSCluster.hourlyCost totalAt_accountStepEKS ks k0
      (r.foldl accountStepRDS (c.foldl accountStepECS (b.foldl accountStepEBS
        (e.foldl accountStepEC2 []))))
    have t6 := totalAt_foldl AccountSummary.totalCost accountStepELB _
      LoadBalancer.hourlyCost totalAt_accountStepELB ls k0
      (ks.foldl accountStepEKS (r.foldl accountStepRDS (c.foldl accountStepECS
        (b.foldl accountStepEBS (e.foldl accountStepEC2 [])))))
    have hval : AccountSummary.totalCost s0
        = totalAt AccountSummary.totalCost (ls.foldl accountStepELB (ks.foldl accountStepEKS
            (r.foldl accountStepRDS (c.foldl accountStepECS (b.foldl accountStepEBS
              (e.foldl accountStepEC2 [])))))) k0 := by
      simp [totalAt, hlook]
    show AccountSummary.totalCost s0 = accountCost (AccountSummary.accountID s0) e b c r ks ls
    rw [hkey, hval, t6, t5, t4, t3, t2, t1]
    simp only [totalAt, lookupAssoc]
    simp [accountCost]
  · have s1 := sumTotal_foldl AccountSummary.totalCost accountStepEC2
      EC2Instance.hourlyCost sumTotal_accountStepEC2 e []
    have s2 := sumTotal_foldl AccountSummary.totalCost accountStepEBS
      EBSVolume.hourlyCost sumTotal_accountStepEBS b (e.foldl accountStepEC2 [])
    have s3 := sumTotal_foldl AccountSummary.totalCost accountStepECS
      ECSService.hourlyCost sumTotal_accountStepECS c
      (b.foldl accountStepEBS (e.foldl accountStepEC2 []))
    have s4 := sumTotal_foldl AccountSummary.totalCost accountStepRDS
      RDSInstance.hourlyCost sumTotal_accountStepRDS r
      (c.foldl accountStepECS (b.foldl accountStepEBS (e.foldl accountStepEC2 [])))
    have s5 := sumTotal_foldl AccountSummary.totalCost accountStepEKS
      EKSCluster.hourlyCost sumTotal_accountStepEKS ks
      (r.foldl accountStepRDS (c.foldl accountStepECS (b.foldl accountStepEBS
        (e.foldl accountStepEC2 []))))
    have s6 := sumTotal_foldl AccountSummary.totalCost accountStepELB
      LoadBalancer.hourlyCost sumTotal_accountStepELB ls
      (ks.foldl accountStepEKS (r.foldl accountStepRDS (c.foldl accountStepECS
        (b.foldl accountStepEBS (e.foldl accountStepEC2 [])))))
    have hmm : ((buildAccountSummaries e b c r ks ls).map AccountSummary.totalCost).sum
        = sumTotal AccountSummary.totalCost (ls.foldl accountStepELB (ks.foldl accountStepEKS
            (r.foldl accountStepRDS (c.foldl accountStepECS (b.foldl accountStepEBS
              (e.foldl accountStepEC2 [])))))) := by
      rw [show buildAccountSummaries e b c r ks ls
          = (ls.foldl accountStepELB (ks.foldl accountStepEKS (r.foldl accountStepRDS
              (c.foldl accountStepECS (b.foldl accountStepEBS (e.foldl accountStepEC2
                ([] : List (String × AccountSummary)))))))).map Prod.snd from rfl,
        List.map_map]
      rfl
    rw [hmm, s6, s5, s4, s3, s2, s1]
    simp only [sumTotal, List.map_nil, List.sum_nil]
    simp [allCost]

theorem buildRegionSummaries_spec (e : List EC2Instance) (b : List EBSVolume)
    (c : List ECSService) (r : List RDSInstance) (ks : List EKSCluster)
    (ls : List LoadBalancer) :
    (∀ s ∈ buildRegionSummaries e b c r ks ls,
        s.totalCost = regionCost s.region e b c r ks ls)
    ∧ ((buildRegionSummaries e b c r ks ls).map RegionSummary.totalCost).sum
        = allCost e b c r ks ls := by
  have hinv : ∀ p ∈ ls.foldl regionStepELB (ks.foldl regionStepEKS (r.foldl regionStepRDS
      (c.foldl regionStepECS (b.foldl regionStepEBS (e.foldl regionStepEC2
        ([] : List (String × RegionSummary))))))), RegionSummary.region p.2 = p.1 := by
    apply keyInv_foldl _ _ keyInv_regionStepELB
    apply keyInv_foldl _ _ keyInv_regionStepEKS
    apply keyInv_foldl _ _ keyInv_regionStepRDS
    apply keyInv_foldl _ _ keyInv_regionStepECS
    apply keyInv_foldl _ _ keyInv_regionStepEBS
    apply keyInv_foldl _ _ keyInv_regionStepEC2
    simp
  have hnd : (keysOf (ls.foldl regionStepELB (ks.foldl regionStepEKS (r.foldl regionStepRDS
      (c.foldl regionStepECS (b.foldl regionStepEBS (e.foldl regionStepEC2
        ([] : List (String × RegionSummary))))))))).Nodup := by
    apply nodup_keysOf_foldl _ nodup_regionStepELB
    apply nodup_keysOf_foldl _ nodup_regionStepEKS
    apply nodup_keysOf_foldl _ nodup_regionStepRDS
    apply nodup_keysOf_foldl _ nodup_regionStepECS
    apply nodup_keysOf_foldl _ nodup_regionStepEBS
    apply nodup_keysOf_foldl _ nodup_regionStepEC2
    simp [keysOf]
  constructor
  · intro s hs
    obtain ⟨⟨k0, s0⟩, hp, rfl⟩ := List.mem_map.mp hs
    have hkey : RegionSummary.region s0 = k0 := hinv (k0, s0) hp
    have hlook := lookupAssoc_of_mem_nodup _ k0 s0 hnd hp
    have t1 := totalAt_foldl RegionSummary.totalCost regionStepEC2 _
      EC2Instance.hourlyCost totalAt_regionStepEC2 e k0 []
    have t2 := totalAt_foldl RegionSummary.totalCost regionStepEBS _
      EBSVolume.hourlyCost totalAt_regionStepEBS b k0 (e.foldl regionStepEC2 [])
    have t3 := totalAt_foldl RegionSummary.totalCost regionStepECS _
      ECSService.hourlyCost totalAt_regionStepECS c k0
      (b.foldl regionStepEBS (e.foldl regionStepEC2 []))
    have t4 := totalAt_foldl RegionSummary.totalCost regionStepRDS _
      RDSInstance.hourlyCost totalAt_regionStepRDS r k0
      (c.foldl regionStepECS (b.foldl regionStepEBS (e.foldl regionStepEC2 [])))
    have t5 := totalAt_foldl RegionSummary.totalCost regionStepEKS _
      EKSCluster.hourlyCost totalAt_regionStepEKS ks k0
      (r.foldl regionStepRDS (c.foldl regionStepECS (b.foldl regionStepEBS
        (e.foldl regionStepEC2 []))))
    have t6 := totalAt_foldl RegionSummary.totalCost regionStepELB _
      LoadBalancer.hourlyCost totalAt_regionStepELB ls k0
      (ks.foldl regionStepEKS (r.foldl regionStepRDS (c.foldl regionStepECS
        (b.foldl regionStepEBS (e.foldl regionStepEC2 [])))))
    have hval : RegionSummary.totalCost s0
        = totalAt RegionSummary.totalCost (ls.foldl regionStepELB (ks.foldl regionStepEKS
            (r.foldl regionStepRDS (c.foldl regionStepECS (b.foldl regionStepEBS
              (e.foldl regionStepEC2 [])))))) k0 := by
      simp [totalAt, hlook]
    show RegionSummary.totalCost s0 = regionCost (RegionSummary.region s0) e b c r ks ls
    rw [hkey, hval, t6, t5, t4, t3, t2, t1]
    simp only [totalAt, lookupAssoc]
    simp [regionCost]
  · have s1 := sumTotal_foldl RegionSummary.totalCost regionStepEC2
      EC2Instance.hourlyCost sumTotal_regionStepEC2 e []
    have s2 := sumTotal_foldl RegionSummary.totalCost regionStepEBS
      EBSVolume.hourlyCost sumTotal_regionStepEBS b (e.foldl regionStepEC2 [])
    have s3 := sumTotal_foldl RegionSummary.totalCost regionStepECS
      ECSService.hourlyCost sumTotal_regionStepECS c
      (b.foldl regionStepEBS (e.foldl regionStepEC2 []))
    have s4 := sumTotal_foldl RegionSummary.totalCost regionStepRDS
      RDSInstance.hourlyCost sumTotal_regionStepRDS r
      (c.foldl regionStepECS (b.foldl regionStepEBS (e.foldl regionStepEC2 [])))
    have s5 := sumTotal_foldl RegionSummary.totalCost regionStepEKS
      EKSCluster.hourlyCost sumTotal_regionStepEKS ks
      (r.foldl regionStepRDS (c.foldl regionStepECS (b.foldl regionStepEBS
        (e.foldl regionStepEC2 []))))
    have s6 := sumTotal_foldl RegionSummary.totalCost regionStepELB
      LoadBalancer.hourlyCost sumTotal_regionStepELB ls
      (ks.foldl regionStepEKS (r.foldl regionStepRDS (c.foldl regionStepECS
        (b.foldl regionStepEBS (e.foldl regionStepEC2 [])))))
    have hmm : ((buildRegionSummaries e b c r ks ls).map RegionSummary.totalCost).sum
        = sumTotal RegionSummary.totalCost (ls.foldl regionStepELB (ks.foldl regionStepEKS
            (r.foldl regionStepRDS (c.foldl regionStepECS (b.foldl regionStepEBS
              (e.foldl regionStepEC2 [])))))) := by
      rw [show buildRegionSummaries e b c r ks ls
          = (ls.foldl regionStepELB (ks.foldl regionStepEKS (r.foldl regionStepRDS
              (c.foldl regionStepECS (b.foldl regionStepEBS (e.foldl regionStepEC2
                ([] : List (String × RegionSummary)))))))).map Prod.snd from rfl,
        List.map_map]
      rfl
    rw [hmm, s6, s5, s4, s3, s2, s1]
    simp only [sumTotal, List.map_nil, List.sum_nil]
    simp [allCost]

theorem discoverResourcesCore_totalCost (e : List EC2Instance) (b : List EBSVolume)
    (c : List ECSService) (r : List RDSInstance) (ks : List EKSCluster)
    (ls : List LoadBalancer) :
    (discoverResourcesCore e b c r ks ls).totalCost = allCost e b c r ks ls := by
  have h : (discoverResourcesCore e b c r ks ls).totalCost
      = ls.foldl (fun acc lb => acc + lb.hourlyCost)
          (ks.foldl (fun acc cluster => acc + cluster.hourlyCost)
            (r.foldl (fun acc inst => acc + inst.hourlyCost)
              (c.foldl (fun acc svc => acc + svc.hourlyCost)
                (b.foldl (fun acc vol => acc + vol.hourlyCost)
                  (e.foldl (fun acc inst => acc + inst.hourlyCost) (0 : ℚ)))))) := rfl
  rw [h]
  simp only [foldl_add_eq_sum]
  simp [allCost]

theorem discoverResources_eq_core (accounts : List Account) (regions : List String)
    (unit : Account → String → Option UnitCollects) :
    DiscoverResources accounts regions unit
      = Except.ok (discoverResourcesCore
          (mergedFam UnitCollects.ec2 accounts regions unit)
          (mergedFam UnitCollects.ebs accounts regions unit)
          (mergedFam UnitCollects.ecs accounts regions unit)
          (mergedFam UnitCollects.rds accounts regions unit)
          (mergedFam UnitCollects.eks accounts regions unit)
          (mergedFam UnitCollects.elb accounts regions unit)) := rfl

/-! ### Claim theorems -/

/-- C1: for every result returned by `DiscoverResources`, `TotalCost` equals
the sum of `HourlyCost` over all resource records in the returned collections,
each `AccountSummary.TotalCost` (resp. `RegionSummary.TotalCost`) equals the
sum of `HourlyCost` over records whose account identifier (resp. region)
matches that summary's grouping key, and the sum of account-summary totals,
the sum of region-summary totals, and `TotalCost` all coincide (exactly, in
the rational model). -/
theorem discoverResources_summary_totals (accounts : List Account)
    (regions : List String) (unit : Account → String → Option UnitCollects)
    (resp : CostResponse)
    (h : DiscoverResources accounts regions unit = Except.ok resp) :
    resp.totalCost = allCost resp.ec2Instances resp.ebsVolumes resp.ecsServices
        resp.rdsInstances resp.eksClusters resp.loadBalancers
    ∧ (∀ s ∈ resp.accounts, s.totalCost = accountCost s.accountID resp.ec2Instances
        resp.ebsVolumes resp.ecsServices resp.rdsInstances resp.eksClusters resp.loadBalancers)
    ∧ (∀ s ∈ resp.regions, s.totalCost = regionCost s.region resp.ec2Instances
        resp.ebsVolumes resp.ecsServices resp.rdsInstances resp.eksClusters resp.loadBalancers)
    ∧ (resp.accounts.map AccountSummary.totalCost).sum = resp.totalCost
    ∧ (resp.regions.map RegionSummary.totalCost).sum = resp.totalCost := by
  rw [discoverResources_eq_core] at h
  have h' := (Except.ok.injEq _ _).mp h
  subst h'
  refine ⟨?_, ?_, ?_, ?_, ?_⟩
  · exact discoverResourcesCore_totalCost _ _ _ _ _ _
  · exact (buildAccountSummaries_spec _ _ _ _ _ _).1
  · exact (buildRegionSummaries_spec _ _ _ _ _ _).1
  · rw [discoverResourcesCore_totalCost]
    exact (buildAccountSummaries_spec _ _ _ _ _ _).2
  · rw [discoverResourcesCore_totalCost]
    exact (buildRegionSummaries_spec _ _ _ _ _ _).2

/-- Witness for C1 at a concrete two-account run with a failing unit. -/
theorem discoverResources_summary_totals_witness :
    (sampleResponse.accounts.map AccountSummary.totalCost).sum = sampleResponse.totalCost
    ∧ (sampleResponse.regions.map RegionSummary.totalCost).sum = sampleResponse.totalCost
    ∧ sampleResponse.totalCost = allCost sampleResponse.ec2Instances
        sampleResponse.ebsVolumes sampleResponse.ecsServices sampleResponse.rdsInstances
        sampleResponse.eksClusters sampleResponse.loadBalancers := by
  have h := discoverResources_summary_totals [sampleAccount, failedAccount] ["us-east-1"]
    sampleUnit sampleResponse rfl
  exact ⟨h.2.2.2.1, h.2.2.2.2, h.1⟩

theorem flatMap_map_comp {α β γ : Type} (g : α → β) (h : β → List γ) (l : List α) :
    (l.map g).flatMap h = l.flatMap fun a => h (g a) := by
  induction l with
  | nil => rfl
  | cons a l ih => simp [List.flatMap_cons, ih]

/-- C5: `DiscoverResources` never returns an error for per-unit discovery
failures: the call returns `Except.ok`, the merged collections are exactly the
concatenation of per-unit contributions, a unit whose credential resolution
failed (`unit a r = none`) contributes the empty list for every family, and a
unit with one failed collector contributes the empty list for that family
only, leaving all other units' and families' contributions intact. -/
theorem discoverResources_isolates_unit_failures (accounts : List Account)
    (regions : List String) (unit : Account → String → Option UnitCollects)
    (h : accounts ≠ []) :
    DiscoverResources accounts regions unit = Except.ok (discoverResourcesCore
      ((unitPairs accounts regions).flatMap fun p => unitContrib UnitCollects.ec2 (unit p.1 p.2))
      ((unitPairs accounts regions).flatMap fun p => unitContrib UnitCollects.ebs (unit p.1 p.2))
      ((unitPairs accounts regions).flatMap fun p => unitContrib UnitCollects.ecs (unit p.1 p.2))
      ((unitPairs accounts regions).flatMap fun p => unitContrib UnitCollects.rds (unit p.1 p.2))
      ((unitPairs accounts regions).flatMap fun p => unitContrib UnitCollects.eks (unit p.1 p.2))
      ((unitPairs accounts regions).flatMap fun p => unitContrib UnitCollects.elb (unit p.1 p.2))) := by
  have heff : effectiveAccounts accounts = accounts := by
    cases accounts with
    | nil => exact absurd rfl h
    | cons a l => rfl
  have hm : ∀ {α : Type} (f : UnitCollects → Except String (List α)),
      mergedFam f accounts regions unit
        = (unitPairs accounts regions).flatMap fun p => unitContrib f (unit p.1 p.2) := by
    intro α f
    rw [mergedFam, heff, foldl_append_eq_flatMap, flatMap_map_comp]
    simp
  rw [discoverResources_eq_core, hm, hm, hm, hm, hm, hm]

/-- Witness for C5: with one healthy account, one account whose credential
resolution fails, and a failed ELB listing on the healthy unit, the run still
returns `ok` carrying the healthy unit's EC2 and RDS records. -/
theorem discoverResources_isolates_unit_failures_witness :
    DiscoverResources [sampleAccount, failedAccount] ["us-east-1"] sampleUnit
      = Except.ok (discoverResourcesCore
        ((unitPairs [sampleAccount, failedAccount] ["us-east-1"]).flatMap
          fun p => unitContrib UnitCollects.ec2 (sampleUnit p.1 p.2))
        ((unitPairs [sampleAccount, failedAccount] ["us-east-1"]).flatMap
          fun p => unitContrib UnitCollects.ebs (sampleUnit p.1 p.2))
        ((unitPairs [sampleAccount, failedAccount] ["us-east-1"]).flatMap
          fun p => unitContrib UnitCollects.ecs (sampleUnit p.1 p.2))
        ((unitPairs [sampleAccount, failedAccount] ["us-east-1"]).flatMap
          fun p => unitContrib UnitCollects.rds (sampleUnit p.1 p.2))
        ((unitPairs [sampleAccount, failedAccount] ["us-east-1"]).flatMap
          fun p => unitContrib UnitCollects.eks (sampleUnit p.1 p.2))
        ((unitPairs [sampleAccount, failedAccount] ["us-east-1"]).flatMap
          fun p => unitContrib UnitCollects.elb (sampleUnit p.1 p.2))) :=
  discoverResources_isolates_unit_failures [sampleAccount, failedAccount] ["us-east-1"]
    sampleUnit (List.cons_ne_nil _ _)

/-- C6 (code evaluation): the `DiscoverResources` of
backend/internal/aws/discovery.go accepts no resource-family filter — its
callers in handlers/costs.go pass one as a fourth argument, which this
signature cannot receive — and every (account, region) unit unconditionally
consults all six collector families, so a run whose caller wanted only the
"ec2" family still carries the RDS collector's records. -/
theorem discoverResources_all_collectors_invoked :
    Except.map CostResponse.rdsInstances
        (DiscoverResources [sampleAccount] ["us-east-1"] sampleUnit) = Except.ok [sampleRDS]
    ∧ Except.map CostResponse.ec2Instances
        (DiscoverResources [sampleAccount] ["us-east-1"] sampleUnit) = Except.ok [sampleEC2]
    ∧ Except.map CostResponse.loadBalancers
        (DiscoverResources [sampleAccount] ["us-east-1"] sampleUnit) = Except.ok [] := by
  exact ⟨rfl, rfl, rfl⟩

/-- C2 counterexample: after the shared watermark (expiry 10) has passed, the
next lookup (m5.large at time 11) does call the Pricing Source, but it does
NOT perform a full reset of all cached entries: the t3.micro entry written
before the watermark passed survives in `c2State3`, and once the fresh
watermark 21 is set, the lookup of t3.micro at time 12 serves that stale
pre-watermark value (2, not the source's 99) without calling the source —
refuting both the full-reset and the no-stale-serving parts of the claim. -/
theorem getEC2Price_stale_entry_served :
    cacheValidAt c2State2 11 = false
    ∧ (GetEC2Price c2State2 11 (.ok 3) "us-east-1" "m5.large").2.2 = true
    ∧ lookupAssoc c2State3.ec2Cache "us-east-1:t3.micro" = some 2
    ∧ cacheValidAt c2State3 12 = true
    ∧ GetEC2Price c2State3 12 (.ok 99) "us-east-1" "t3.micro" = (.ok 2, c2State3, false) :=
  ⟨rfl, rfl, rfl, rfl, rfl⟩

/-- C2 (amended): once the shared watermark has passed (or was never set),
the next lookup of any `PriceKey` — including a previously-cached one — does
call the Pricing Source; but the read performs no reset of the other cached
entries, whose pre-watermark values all survive the lookup unchanged. -/
theorem getEC2Price_after_watermark (st : ProviderState) (now : ℕ)
    (fetch : Except String CostValue) (region instanceType : String)
    (h : cacheValidAt st now = false) :
    (GetEC2Price st now fetch region instanceType).2.2 = true
    ∧ ∀ k, k ≠ region ++ ":" ++ instanceType →
        lookupAssoc (GetEC2Price st now fetch region instanceType).2.1.ec2Cache k
          = lookupAssoc st.ec2Cache k := by
  cases hl : lookupAssoc st.ec2Cache (region ++ ":" ++ instanceType) <;>
    cases fetch <;>
      simp only [GetEC2Price, hl, h] <;>
        exact ⟨by first | rfl | trivial,
          fun k hk => by
            first
              | rfl
              | trivial
              | exact lookupAssoc_setAssoc_ne _ _ _ _ hk⟩

/-- Witness for the amended C2 at the concrete post-watermark state. -/
theorem getEC2Price_after_watermark_witness :
    (GetEC2Price c2State2 11 (.ok 3) "us-east-1" "m5.large").2.2 = true
    ∧ lookupAssoc (GetEC2Price c2State2 11 (.ok 3) "us-east-1" "m5.large").2.1.ec2Cache
          "us-east-1:t3.micro"
        = lookupAssoc c2State2.ec2Cache "us-east-1:t3.micro" :=
  ⟨(getEC2Price_after_watermark c2State2 11 (.ok 3) "us-east-1" "m5.large" rfl).1,
   (getEC2Price_after_watermark c2State2 11 (.ok 3) "us-east-1" "m5.large" rfl).2
     "us-east-1:t3.micro" (by decide)⟩

/-- C3: within one validity window — after a first lookup of a `PriceKey`
returned a value and while the shared watermark is still unexpired — a second
lookup of the same key returns the bit-identical value, leaves the state
untouched, and does not invoke the Pricing Source (whatever the source would
now answer), so the source is invoked at most once for that key in the
window. -/
theorem getEC2Price_idempotent_in_window (st : ProviderState) (now1 now2 : ℕ)
    (fetch1 fetch2 : Except String CostValue) (region instanceType : String)
    (v1 : CostValue) (st1 : ProviderState) (b1 : Bool)
    (h1 : GetEC2Price st now1 fetch1 region instanceType = (.ok v1, st1, b1))
    (h2 : cacheValidAt st1 now2 = true) :
    GetEC2Price st1 now2 fetch2 region instanceType = (.ok v1, st1, false) := by
  have hkey : lookupAssoc st1.ec2Cache (region ++ ":" ++ instanceType) = some v1 := by
    cases hl : lookupAssoc st.ec2Cache (region ++ ":" ++ instanceType) with
    | some price =>
        cases hv : cacheValidAt st now1 with
        | true =>
            simp only [GetEC2Price, hl, hv, Prod.mk.injEq, Except.ok.injEq] at h1
            obtain ⟨h1a, h1b, h1c⟩ := h1
            rw [← h1b, hl, h1a]
        | false =>
            cases fetch1 with
            | error e => simp [GetEC2Price, hl, hv] at h1
            | ok price' =>
                simp only [GetEC2Price, hl, hv, Prod.mk.injEq, Except.ok.injEq] at h1
                obtain ⟨h1a, h1b, h1c⟩ := h1
                rw [← h1b]
                simpa [h1a] using lookupAssoc_setAssoc_self st.ec2Cache
                  (region ++ ":" ++ instanceType) price'
    | none =>
        cases fetch1 with
        | error e => simp [GetEC2Price, hl] at h1
        | ok price' =>
            simp only [GetEC2Price, hl, Prod.mk.injEq, Except.ok.injEq] at h1
            obtain ⟨h1a, h1b, h1c⟩ := h1
            rw [← h1b]
            simpa [h1a] using lookupAssoc_setAssoc_self st.ec2Cache
              (region ++ ":" ++ instanceType) price'
  simp only [GetEC2Price, hkey, h2]

/-- Witness for C3: a miss-then-hit pair on the same key inside one window. -/
theorem getEC2Price_idempotent_in_window_witness :
    GetEC2Price c2State1 3 (.ok 77) "us-east-1" "m5.large" = (.ok 1, c2State1, false) :=
  getEC2Price_idempotent_in_window c2State0 0 3 (.ok 1) (.ok 77) "us-east-1" "m5.large"
    1 c2State1 true rfl rfl

/-- C4: every RDS record whose lifecycle state is in the non-billable set
(stopped, stopping, deleted, deleting, failed,
inaccessible-encryption-credentials, incompatible-network,
incompatible-restore, insufficient-capacity) gets `HourlyCost` 0, and the
pricing lookups actually issued are exactly those for the billable instances
— so the Pricing Cache is never consulted for a non-billable instance,
regardless of what the provider would return. -/
theorem discoverRDS_nonbillable_zero_cost
    (provider : String → String → String → Bool → Except String CostValue)
    (region accountID accountName : String) (raw : List RawRDS) :
    (∀ rec ∈ (discoverRDS provider region accountID accountName raw).1,
        isRDSNonBillableState rec.state = true → rec.hourlyCost = 0)
    ∧ (discoverRDS provider region accountID accountName raw).2
        = (raw.filter fun i => !isRDSNonBillableState (i.dbInstanceStatus.getD "")).map
            (fun i => (region, i.dbInstanceClass.getD "", i.engine.getD "", i.multiAZ.getD false)) := by
  induction raw with
  | nil => exact ⟨by simp [discoverRDS], rfl⟩
  | cons inst rest ih =>
      cases hb : isRDSNonBillableState (inst.dbInstanceStatus.getD "") with
      | true =>
          refine ⟨?_, ?_⟩
          · intro rec hrec hstate
            simp only [discoverRDS, hb] at hrec
            rcases List.mem_cons.mp hrec with hrec | hrec
            · subst hrec; rfl
            · exact ih.1 rec hrec hstate
          · simp only [discoverRDS, hb, List.filter_cons]
            simp [hb, ih.2]
      | false =>
          cases hp : provider region (inst.dbInstanceClass.getD "") (inst.engine.getD "")
              (inst.multiAZ.getD false) with
          | error err =>
              refine ⟨?_, ?_⟩
              · intro rec hrec hstate
                simp only [discoverRDS, hb, hp] at hrec
                rcases List.mem_cons.mp hrec with hrec | hrec
                · subst hrec; rfl
                · exact ih.1 rec hrec hstate
              · simp only [discoverRDS, hb, hp, List.filter_cons]
                simp [hb, ih.2]
          | ok price =>
              refine ⟨?_, ?_⟩
              · intro rec hrec hstate
                simp only [discoverRDS, hb, hp] at hrec
                rcases List.mem_cons.mp hrec with hrec | hrec
                · subst hrec
                  have h' : isRDSNonBillableState (inst.dbInstanceStatus.getD "") = true :=
                    hstate
                  simp [hb] at h'
                · exact ih.1 rec hrec hstate
              · simp only [discoverRDS, hb, hp, List.filter_cons]
                simp [hb, ih.2]

/-- Witness for C4: on the concrete listing (one available, one stopped
instance) the stopped record costs 0 and only the available instance's
dimensions reach the pricing layer. -/
theorem discoverRDS_nonbillable_zero_cost_witness :
    sampleStoppedRDSRecord.hourlyCost = 0
    ∧ (discoverRDS sampleRDSProvider "us-east-1" "111111111111" "prod" sampleRawRDS).2
        = [("us-east-1", "db.t4g.micro", "postgres", false)] := by
  have h := discoverRDS_nonbillable_zero_cost sampleRDSProvider "us-east-1" "111111111111"
    "prod" sampleRawRDS
  exact ⟨h.1 sampleStoppedRDSRecord (by decide) (by decide), by rw [h.2]; decide⟩

/-- C9: the records produced by `discoverEC2` never include a terminated
instance (such instances are skipped entirely rather than reported with zero
cost); the pricing lookups issued are exactly those for instances whose state
is "running"; and every non-running record carries `HourlyCost` 0 without any
pricing consultation. -/
theorem discoverEC2_terminated_skipped
    (provider : String → String → Except String CostValue)
    (region accountID accountName : String) (raw : List RawEC2) :
    (∀ rec ∈ (discoverEC2 provider region accountID accountName raw).1,
        rec.state ≠ "terminated" ∧ (rec.state ≠ "running" → rec.hourlyCost = 0))
    ∧ (discoverEC2 provider region accountID accountName raw).2
        = (raw.filter fun i => i.state = some "running").map fun i => (region, i.instanceType) := by
  induction raw with
  | nil => exact ⟨by simp [discoverEC2], rfl⟩
  | cons inst rest ih =>
      by_cases hterm : inst.state = some "terminated"
      · refine ⟨?_, ?_⟩
        · intro rec hrec
          simp only [discoverEC2, if_pos hterm] at hrec
          exact ih.1 rec hrec
        · simp only [discoverEC2, if_pos hterm, List.filter_cons]
          simp [hterm, ih.2]
      · by_cases hrun : inst.state = some "running"
        · cases hp : provider region inst.instanceType with
          | error err =>
              refine ⟨?_, ?_⟩
              · intro rec hrec
                simp only [discoverEC2, if_neg hterm, if_pos hrun, hp] at hrec
                rcases List.mem_cons.mp hrec with hrec | hrec
                · subst hrec
                  refine ⟨?_, fun _ => rfl⟩
                  simp [hrun]
                · exact ih.1 rec hrec
              · simp only [discoverEC2, if_neg hterm, if_pos hrun, hp, List.filter_cons]
                simp [hrun, ih.2]
          | ok price =>
              refine ⟨?_, ?_⟩
              · intro rec hrec
                simp only [discoverEC2, if_neg hterm, if_pos hrun, hp] at hrec
                rcases List.mem_cons.mp hrec with hrec | hrec
                · subst hrec
                  constructor
                  · simp [hrun]
                  · intro hne
                    exact absurd (by simp [hrun]) hne
                · exact ih.1 rec hrec
              · simp only [discoverEC2, if_neg hterm, if_pos hrun, hp, List.filter_cons]
                simp [hrun, ih.2]
        · refine ⟨?_, ?_⟩
          · intro rec hrec
            simp only [discoverEC2, if_neg hterm, if_neg hrun] at hrec
            rcases List.mem_cons.mp hrec with hrec | hrec
            · subst hrec
              refine ⟨?_, fun _ => rfl⟩
              cases hs : inst.state with
              | none => simp [hs]
              | some s =>
                  simp only [hs, Option.getD_some]
                  intro hcontra
                  exact hterm (by rw [hs, hcontra])
            · exact ih.1 rec hrec
          · simp only [discoverEC2, if_neg hterm, if_neg hrun, List.filter_cons]
            simp [hrun, ih.2]

/-- Witness for C9: on the concrete listing (terminated, running, stopped)
only the running instance's dimensions reach the pricing layer, the stopped
record is billed 0, and the terminated instance yields no record. -/
theorem discoverEC2_terminated_skipped_witness :
    (discoverEC2 sampleEC2Provider "us-east-1" "111111111111" "prod" sampleRawEC2).2
        = [("us-east-1", "t3.micro")]
    ∧ sampleStoppedEC2Record.state ≠ "terminated"
    ∧ sampleStoppedEC2Record.hourlyCost = 0 := by
  have h := discoverEC2_terminated_skipped sampleEC2Provider "us-east-1" "111111111111"
    "prod" sampleRawEC2
  have hm := h.1 sampleStoppedEC2Record (by decide)
  exact ⟨by rw [h.2]; decide, hm.1, hm.2 (by decide)⟩

/-- C7: a gp3 block-volume lookup with size 100 GiB, IOPS 4000, throughput
200 MiB/s at base rate 0.08 per GiB-month, 0.005 per IOPS-month and 0.040 per
MiB/s-month prices at monthly 100×0.08 + (4000−3000)×0.005 + (200−125)×0.040
= 16, i.e. hourly 16/730 (≈ 0.021918); and with metered usage at or below the
gp3 free thresholds (3000 IOPS, 125 MiB/s) only the base storage charge
remains, for any rates and size — the add-ons are charged only above the
family-gated free thresholds. -/
theorem getEBSPrice_gp3_example :
    (GetEBSPrice emptyProviderState 0 (.ok (0.08, 0.005, 0.040))
        "us-east-1" "gp3" 100 4000 200).1 = .ok (16 / 730)
    ∧ ∀ (base iopsRate tpRate : CostValue) (sizeGiB iops throughput : ℤ),
        iops ≤ 3000 → throughput ≤ 125 →
        (GetEBSPrice emptyProviderState 0 (.ok (base, iopsRate, tpRate))
            "us-east-1" "gp3" sizeGiB iops throughput).1
          = .ok (base * (sizeGiB : ℚ) / 730) := by
  constructor
  · have hb : (GetEBSPrice emptyProviderState 0 (.ok (0.08, 0.005, 0.040))
        "us-east-1" "gp3" 100 4000 200).1
      = Except.ok (ebsHourlyFromRates "gp3" 0.08 0.005 0.040 100 4000 200) := rfl
    rw [hb]
    norm_num [ebsHourlyFromRates]
  · intro base iopsRate tpRate sizeGiB iops throughput hIops hTp
    have h1 : ¬ ((3000 : ℤ) < iops) := not_lt.mpr hIops
    have h2 : ¬ ((125 : ℤ) < throughput) := not_lt.mpr hTp
    simp only [GetEBSPrice, ebsHourlyFromRates, lookupAssoc, emptyProviderState,
      cacheValidAt]
    simp [h1, h2]

/-- Witness for C7's threshold clause at the free-tier boundary. -/
theorem getEBSPrice_gp3_example_witness :
    (GetEBSPrice emptyProviderState 0 (.ok (0.08, 0.005, 0.040))
        "us-east-1" "gp3" 100 3000 125).1 = .ok (0.08 * ((100 : ℤ) : ℚ) / 730) :=
  getEBSPrice_gp3_example.2 0.08 0.005 0.040 100 3000 125 (by decide) (by decide)

/-- C8: a FARGATE container-service lookup with running count 3 in us-east-1
(reference per-task rate 0.02469/hr) prices at 3 × 0.02469 = 0.07407; any
non-FARGATE launch type prices at 0 regardless of running count, as does any
non-positive running count. -/
theorem getECSPrice_fargate_example :
    (GetECSPrice emptyProviderState 0 "us-east-1" "FARGATE" 3).1 = .ok 0.07407
    ∧ (∀ (st : ProviderState) (now : ℕ) (region launchType : String) (count : ℤ),
        launchType ≠ "FARGATE" → (GetECSPrice st now region launchType count).1 = .ok 0)
    ∧ (∀ (st : ProviderState) (now : ℕ) (region launchType : String) (count : ℤ),
        count ≤ 0 → (GetECSPrice st now region launchType count).1 = .ok 0) := by
  refine ⟨?_, ?_, ?_⟩
  · have hb : (GetECSPrice emptyProviderState 0 "us-east-1" "FARGATE" 3).1
        = Except.ok (getECSFargatePrice "us-east-1" * ((3 : ℤ) : ℚ)) := rfl
    rw [hb]
    norm_num [getECSFargatePrice, ecsRegionPrices, lookupAssoc]
  · intro st now region launchType count hlt
    by_cases hc : count ≤ 0
    · simp [GetECSPrice, hc]
    · simp [GetECSPrice, hc, hlt]
  · intro st now region launchType count hc
    simp [GetECSPrice, hc]

/-- Witness for C8's zero clauses at concrete non-serverless inputs. -/
theorem getECSPrice_fargate_example_witness :
    (GetECSPrice emptyProviderState 0 "us-east-1" "EC2" 5).1 = .ok 0
    ∧ (GetECSPrice emptyProviderState 7 "eu-west-1" "FARGATE" (-2)).1 = .ok 0 :=
  ⟨getECSPrice_fargate_example.2.1 emptyProviderState 0 "us-east-1" "EC2" 5 (by decide),
   getECSPrice_fargate_example.2.2 emptyProviderState 7 "eu-west-1" "FARGATE" (-2) (by decide)⟩

/-- C10 counterexample: the fallback estimate is NOT selected by the
instance-class size suffix. For "db.m5.xlarge" (size suffix "xlarge", claimed
0.272) the code compares `instanceClass[7:]` = "large" and returns 0.136; for
"db.t3.micro" (size suffix "micro", claimed 0.017) it compares "icro",
matches nothing, and returns the 0.068 default. -/
theorem getRDSFallbackPrice_not_suffix_selected :
    (GetRDSPrice emptyProviderState 0
        (fetchRDSPrice emptyProducts noParse "us-east-1" "db.m5.xlarge" "mysql" false)
        "us-east-1" "db.m5.xlarge" "mysql" false).1 = Except.ok 0.136
    ∧ (0.136 : CostValue) ≠ 0.272
    ∧ (GetRDSPrice emptyProviderState 0
        (fetchRDSPrice emptyProducts noParse "us-east-1" "db.t3.micro" "mysql" false)
        "us-east-1" "db.t3.micro" "mysql" false).1 = Except.ok 0.068
    ∧ (0.068 : CostValue) ≠ 0.017 :=
  ⟨rfl, by norm_num, rfl, by norm_num⟩

/-- C10 (amended): when the Pricing Source returns an empty product list,
`GetRDSPrice` returns the static fallback estimate without error; the
estimate is selected by comparing the tail of the instance class from byte
index 7 onward against the size names (micro 0.017, small 0.034, medium
0.068, large 0.136, xlarge 0.272, otherwise 0.068) — which equals the size
suffix only for classes whose family prefix is exactly 7 bytes long, such as
"db.t4g." — and it is exactly doubled when multiAZ is set. -/
theorem getRDSPrice_empty_list_fallback :
    (∀ (now : ℕ) (instanceClass engine : String) (multiAZ : Bool),
      (GetRDSPrice emptyProviderState now
          (fetchRDSPrice emptyProducts noParse "us-east-1" instanceClass engine multiAZ)
          "us-east-1" instanceClass engine multiAZ).1
        = Except.ok (getRDSFallbackPrice instanceClass multiAZ))
    ∧ (∀ instanceClass : String,
        getRDSFallbackPrice instanceClass true = 2 * getRDSFallbackPrice instanceClass false)
    ∧ getRDSFallbackPrice "db.t4g.micro" false = 0.017
    ∧ getRDSFallbackPrice "db.t4g.small" false = 0.034
    ∧ getRDSFallbackPrice "db.t4g.medium" false = 0.068
    ∧ getRDSFallbackPrice "db.t4g.large" false = 0.136
    ∧ getRDSFallbackPrice "db.r6g.xlarge" false = 0.272
    ∧ getRDSFallbackPrice "db.t3.micro" false = 0.068 := by
  refine ⟨fun now instanceClass engine multiAZ => rfl, ?_, rfl, rfl, rfl, rfl, rfl, rfl⟩
  intro instanceClass
  simp [getRDSFallbackPrice]
  ring_nf
